import Mathlib

/-!
Epiphany BSP host library (`src/host_bsp.c`): embedding and properties

The host side of the library is one global `bsp_state_t state`, one flag
`bsp_initialized`, and a set of functions that read and write them and that
talk to the Epiphany hardware layer (`e_read`, `e_write`, `e_open`, ...).

Conventions of the embedding

* The non-`DEBUG` build is modelled (the `#ifdef DEBUG` blocks are compiled out).
* The global state is passed explicitly.  The answers of the hardware layer
  (did a read or write transfer all its bytes, which bytes did a read deliver,
  did `e_finalize` succeed) are inputs, collected in `...Env` structures.
* What the host does to the outside world (writes to shared memory, callback
  invocations, diagnostics on stdout) is recorded as a list of `Event`s.  A
  callback is client code: its invocation is an event and it is taken not to
  touch the globals of the library.
* `int` values are `Int`; `unsigned int` values are `Nat` and every `unsigned`
  computation of the source is reduced modulo `2 ^ 32`.  An `int` that can run
  past `INT_MAX` (the cursor `message_index`, the cumulative `extmem_corrupted`
  and `total_syncs`, the byte total of `ebsp_qsize`) wraps around as it does on
  the target (`wrap_int`).  The five per-iteration counters of the poll loop
  count slots of one array and cannot overflow.
* A loop `for (i = 0; i < state.nprocs; i++)` over `syncstate` visits the slots
  that exist; an index past the end of the array is outside the model.
* Behaviour the C standard leaves undefined (integer division by zero, a
  `memcpy` outside the object it addresses) is an explicit result
  (`Ret.undefined`, `none`), never a made-up value.
* The header `common.h` of the library (`_NPROCS`, `MAX_MESSAGES`,
  `MAX_PAYLOAD_SIZE`, `COMMBUF_EADDR`, the `STATE_*` codes and the layout of
  `ebsp_comm_buf`) is not part of the sources at hand: its constants are the
  fields of `Config`.
-/

namespace EpiphanyBSP

/-! ## Constants and data model -/

/-- Constants of `common.h`, together with the two host addresses that the
pointer conversions use (`&state.comm_buf`, and the offset of
`data_payloads.buf` inside `ebsp_comm_buf`). -/
structure Config where
  _NPROCS : Nat
  MAX_MESSAGES : Nat
  MAX_PAYLOAD_SIZE : Nat
  MSGBUF_SIZE : Nat
  COMMBUF_EADDR : Nat
  comm_buf_addr : Nat
  buf_offset : Nat
  STATE_INIT : Int
  STATE_RUN : Int
  STATE_SYNC : Int
  STATE_FINISH : Int
  STATE_CONTINUE : Int
  STATE_ABORT : Int
deriving DecidableEq, Repr

/-- The six `STATE_*` codes are labels of one `switch`, hence pairwise
different. -/
def Config.codes_distinct (cfg : Config) : Prop :=
  [cfg.STATE_INIT, cfg.STATE_RUN, cfg.STATE_SYNC, cfg.STATE_FINISH,
    cfg.STATE_CONTINUE, cfg.STATE_ABORT].Nodup

instance (cfg : Config) : Decidable cfg.codes_distinct := by
  unfold Config.codes_distinct; infer_instance

/-- Size constraints every build satisfies: the arrays sized by the constants
are objects of a 32-bit address space and the constants are `int` literals. -/
def Config.sizes_ok (cfg : Config) : Prop :=
  cfg.MAX_MESSAGES < 2 ^ 31 ∧ cfg.MAX_PAYLOAD_SIZE < 2 ^ 31

instance (cfg : Config) : Decidable cfg.sizes_ok := by
  unfold Config.sizes_ok; infer_instance

/-- A concrete configuration used for evaluating the model: a 16-core board.
The numeric values are placeholders of the right shape, not a claim about
`common.h`. -/
def cfg16 : Config where
  _NPROCS := 16
  MAX_MESSAGES := 4
  MAX_PAYLOAD_SIZE := 32
  MSGBUF_SIZE := 8
  COMMBUF_EADDR := 0x8f000000
  comm_buf_addr := 0x00021000
  buf_offset := 0x400
  STATE_INIT := 0
  STATE_RUN := 1
  STATE_SYNC := 2
  STATE_FINISH := 3
  STATE_CONTINUE := 4
  STATE_ABORT := 5

/-- One entry of the message queue: `{pid, tag, payload, nbytes}`; `tag` and
`payload` are Epiphany-side addresses (32-bit). -/
structure ebsp_message_header where
  pid : Int
  tag : Nat
  payload : Nat
  nbytes : Int
deriving DecidableEq, Repr

/-- The communication buffer `ebsp_comm_buf` (host mirror).  `count` and
`message` are `message_queue[0]`; `buffer_size` and `buf` are
`data_payloads`. -/
structure ebsp_comm_buf where
  syncstate : List Int
  syncstate_ptr : Nat
  msgbuf : List Nat
  msgflag : Int
  nprocs : Int
  tagsize : Int
  count : Nat
  message : List ebsp_message_header
  buffer_size : Nat
  buf : List Nat
deriving DecidableEq, Repr

/-- The fields of `e_platform_t` the host reads. -/
structure e_platform_t where
  rows : Int
  cols : Int
deriving DecidableEq, Repr

/-- A `struct timespec`. -/
structure timespec where
  tv_sec : Int
  tv_nsec : Int
deriving DecidableEq, Repr

/-- The global `bsp_state_t state`.  Function pointers are `Option Nat`
(`none` is the null pointer, `some f` the function `f`); hardware handles are
opaque numbers; the two paths are the bytes before the terminating zero. -/
structure bsp_state_t where
  nprocs : Int
  e_directory : List Nat
  e_fullpath : List Nat
  rows : Int
  cols : Int
  nprocs_used : Int
  emem : Nat
  emem_malloc : Nat
  comm_buf : ebsp_comm_buf
  message_index : Int
  sync_callback : Option Nat
  end_callback : Option Nat
  num_vars_registered : Int
  platform : e_platform_t
  dev : Nat
  ts_start : timespec
  ts_end : timespec
deriving DecidableEq, Repr

/-- The two globals of `host_bsp.c`: `state` and `bsp_initialized`. -/
structure Runtime where
  state : bsp_state_t
  bsp_initialized : Int
deriving DecidableEq, Repr

/-- An all-zero message header. -/
def zero_header : ebsp_message_header := ⟨0, 0, 0, 0⟩

/-- Result of `memset(&state.comm_buf, 0, sizeof(ebsp_comm_buf))`. -/
def zero_comm_buf (cfg : Config) : ebsp_comm_buf where
  syncstate := List.replicate cfg._NPROCS 0
  syncstate_ptr := 0
  msgbuf := List.replicate cfg.MSGBUF_SIZE 0
  msgflag := 0
  nprocs := 0
  tagsize := 0
  count := 0
  message := List.replicate cfg.MAX_MESSAGES zero_header
  buffer_size := 0
  buf := List.replicate cfg.MAX_PAYLOAD_SIZE 0

/-- Result of `memset(&state, 0, sizeof(state))`. -/
def zero_state (cfg : Config) : bsp_state_t where
  nprocs := 0
  e_directory := []
  e_fullpath := []
  rows := 0
  cols := 0
  nprocs_used := 0
  emem := 0
  emem_malloc := 0
  comm_buf := zero_comm_buf cfg
  message_index := 0
  sync_callback := none
  end_callback := none
  num_vars_registered := 0
  platform := ⟨0, 0⟩
  dev := 0
  ts_start := ⟨0, 0⟩
  ts_end := ⟨0, 0⟩

/-- What the host does to the outside world. -/
inductive Event where
  | write_comm_buf (data : ebsp_comm_buf) (ok : Bool)
  | write_remotetimer (ok : Bool)
  | start_group (ok : Bool)
  | read_head (ok : Bool)
  | print_msg (pid : Int) (text : List Nat)
  | write_msgflag (value : Int) (ok : Bool)
  | sync_callback (f : Nat)
  | write_syncstate (data : List Int) (ok : Bool)
  | write_core_syncstate (pid row col value : Int) (ok : Bool)
  | print_abort
  | read_full (ok : Bool)
  | end_callback (f : Nat)
  | free_emem
  | finalize (ok : Bool)
deriving DecidableEq, Repr

/-- How a call ends: it returns a value, it is still inside its poll loop when
the recorded answers of the hardware run out, or its behaviour is undefined. -/
inductive Ret where
  | returned (v : Int)
  | polling
  | undefined
deriving DecidableEq, Repr

/-! ## Machine integers -/

/-- The value a 32-bit two's complement `int` holds after an arithmetic result
`x`: `x` itself inside `INT_MIN .. INT_MAX`, wrapped around modulo `2 ^ 32`
outside (`INT_MAX + 1` becomes `INT_MIN`). -/
def wrap_int (x : Int) : Int := (x + 2147483648) % 4294967296 - 2147483648

/-! ## Shared-memory access helpers and callbacks -/

/-- The function `_get_p_coords`: `row = pid / state.cols`, `col = pid % state.cols`
(C division, truncating); undefined when `state.cols` is zero. -/
def _get_p_coords (st : bsp_state_t) (pid : Int) : Option (Int × Int) :=
  if st.cols = 0 then none else some (Int.tdiv pid st.cols, Int.tmod pid st.cols)

/-- The function `ebsp_set_sync_callback`. -/
def ebsp_set_sync_callback (st : bsp_state_t) (cb : Option Nat) : bsp_state_t :=
  { st with sync_callback := cb }

/-- The function `ebsp_set_end_callback`. -/
def ebsp_set_end_callback (st : bsp_state_t) (cb : Option Nat) : bsp_state_t :=
  { st with end_callback := cb }

/-- Events that belong to a barrier release: the sync callback, the bulk
write of the syncstate array, a per-core syncstate write. -/
def Event.is_release : Event → Bool
  | Event.sync_callback _ => true
  | Event.write_syncstate _ _ => true
  | Event.write_core_syncstate _ _ _ _ _ => true
  | _ => false

/-! ## The poll loop of `ebsp_spmd` -/

/-- Answers of the hardware layer during one poll iteration: the clock, whether
each transfer moved all its bytes, and the bytes the prefix read delivered
(the Epiphany-to-host part of the buffer, located before `remotetimer`). -/
structure PollEnv where
  clock : timespec
  timer_write_ok : Bool
  read_ok : Bool
  rd_syncstate : List Int
  rd_syncstate_ptr : Nat
  rd_msgbuf : List Nat
  rd_msgflag : Int
  msgflag_write_ok : Bool
  syncstate_write_ok : Bool
  core_write_ok : Int → Bool

/-- The per-iteration counters of the poll loop together with the cumulative
`extmem_corrupted`. -/
structure Counters where
  run_counter : Int
  sync_counter : Int
  finish_counter : Int
  continue_counter : Int
  abort_counter : Int
  extmem_corrupted : Int
deriving DecidableEq, Repr

/-- One pass through the `switch` on `syncstate[i]`.  `extmem_corrupted` lives
across the iterations of the poll loop, so its increment is an `int`
increment. -/
def tally_slot (cfg : Config) (c : Counters) (s : Int) : Counters :=
  if s = cfg.STATE_INIT then c
  else if s = cfg.STATE_RUN then { c with run_counter := c.run_counter + 1 }
  else if s = cfg.STATE_SYNC then { c with sync_counter := c.sync_counter + 1 }
  else if s = cfg.STATE_FINISH then { c with finish_counter := c.finish_counter + 1 }
  else if s = cfg.STATE_CONTINUE then { c with continue_counter := c.continue_counter + 1 }
  else if s = cfg.STATE_ABORT then { c with abort_counter := c.abort_counter + 1 }
  else { c with extmem_corrupted := wrap_int (c.extmem_corrupted + 1) }

/-- The slots the loops `for (i = 0; i < state.nprocs; i++)` visit. -/
def scanned_slots (st : bsp_state_t) : List Int :=
  st.comm_buf.syncstate.take st.nprocs.toNat

/-- The tally loop: counters reset to zero, then one `switch` per slot
`0 .. state.nprocs - 1`. -/
def tally (cfg : Config) (st : bsp_state_t) (extmem_corrupted : Int) : Counters :=
  (scanned_slots st).foldl (tally_slot cfg) ⟨0, 0, 0, 0, 0, extmem_corrupted⟩

/-- The loop `for (i = 0; i < state.nprocs; i++) syncstate[i] = v`. -/
def fill_syncstate (syncstate : List Int) (nprocs : Int) (v : Int) : List Int :=
  List.replicate (min nprocs.toNat syncstate.length) v ++ syncstate.drop nprocs.toNat

/-- The function `_write_core_syncstate(pid, syncstate)` as issued by the poll
loop (its result is ignored there); `none` when `_get_p_coords` divides by
zero. -/
def _write_core_syncstate (st : bsp_state_t) (ok : Int → Bool) (pid value : Int) :
    Option Event :=
  match _get_p_coords st pid with
  | none => none
  | some (row, col) => some (Event.write_core_syncstate pid row col value (ok pid))

/-- The calls `_write_core_syncstate(i, v)` for the core numbers of a list, in
order; `none` as soon as one of them is undefined. -/
def write_cores (st : bsp_state_t) (ok : Int → Bool) (value : Int) :
    List Nat → Option (List Event)
  | [] => some []
  | i :: rest =>
    match _write_core_syncstate st ok (i : Int) value with
    | none => none
    | some e =>
      match write_cores st ok value rest with
      | none => none
      | some es => some (e :: es)

/-- The loop `for (i = 0; i < state.nprocs; i++) _write_core_syncstate(i, v)`. -/
def write_all_cores (st : bsp_state_t) (ok : Int → Bool) (value : Int) :
    Option (List Event) :=
  write_cores st ok value (List.range st.nprocs.toNat)

/-- Result of one poll iteration. -/
structure PollResult where
  st : bsp_state_t
  total_syncs : Int
  extmem_corrupted : Int
  events : List Event
  outcome : Ret
  exit_abort : Bool
  exit_finish : Bool

/-- The mirror after `e_read(&state.emem, 0, 0, 0, &state.comm_buf, read_size)`
transferred the whole prefix.  (After an incomplete transfer `ebsp_spmd` returns
at once; the bytes such a transfer leaves in the mirror are not modelled.) -/
def read_sync_part (st : bsp_state_t) (env : PollEnv) : bsp_state_t :=
  { st with comm_buf := { st.comm_buf with
      syncstate := env.rd_syncstate
      syncstate_ptr := env.rd_syncstate_ptr
      msgbuf := env.rd_msgbuf
      msgflag := env.rd_msgflag } }

/-- The function `_update_remote_timer`: store the clock in `state.ts_end`, write
the elapsed time to shared memory, drop the result of the write. -/
def _update_remote_timer (st : bsp_state_t) (clock : timespec) (ok : Bool) :
    bsp_state_t × List Event :=
  ({ st with ts_end := clock }, [Event.write_remotetimer ok])

/-- The debug-mailbox step: when `msgflag` is set, print, reset the flag in the
mirror and write the flag back (result of the write dropped). -/
def check_messages (st : bsp_state_t) (ok : Bool) : bsp_state_t × List Event :=
  if st.comm_buf.msgflag ≠ 0 then
    ({ st with comm_buf := { st.comm_buf with msgflag := 0 } },
      [Event.print_msg (st.comm_buf.msgflag - 1) st.comm_buf.msgbuf,
       Event.write_msgflag 0 ok])
  else (st, [])

/-- The body of `if (sync_counter == state.nprocs) { ... }`: call the sync
callback if there is one, set the slots `0 .. state.nprocs - 1` of the mirror to
`STATE_CONTINUE`, write `_NPROCS` slots back in one transfer, then write
`STATE_CONTINUE` to every core (all write results dropped).  `none` when the
per-core write divides by zero in `_get_p_coords`. -/
def barrier_release (cfg : Config) (st : bsp_state_t) (env : PollEnv) :
    Option (bsp_state_t × List Event) :=
  let cb : List Event :=
    match st.sync_callback with
    | some f => [Event.sync_callback f]
    | none => []
  let ss := fill_syncstate st.comm_buf.syncstate st.nprocs cfg.STATE_CONTINUE
  let st1 : bsp_state_t := { st with comm_buf := { st.comm_buf with syncstate := ss } }
  match write_all_cores st1 env.core_write_ok cfg.STATE_CONTINUE with
  | none => none
  | some ws =>
    some (st1, cb ++ [Event.write_syncstate (ss.take cfg._NPROCS) env.syncstate_write_ok] ++ ws)

/-- The two exit tests at the end of the loop body:
`if (abort_counter != 0) { printf(...); break; }` and
`if (finish_counter == state.nprocs) break;`. -/
def poll_exit (st : bsp_state_t) (total_syncs : Int) (c : Counters) (evs : List Event) :
    PollResult :=
  if c.abort_counter ≠ 0 then
    ⟨st, total_syncs, c.extmem_corrupted, evs ++ [Event.print_abort], Ret.polling, true, false⟩
  else if c.finish_counter = st.nprocs then
    ⟨st, total_syncs, c.extmem_corrupted, evs, Ret.polling, false, true⟩
  else
    ⟨st, total_syncs, c.extmem_corrupted, evs, Ret.polling, false, false⟩

/-- The loop body after a complete prefix read: tally, debug mailbox, barrier
release when `sync_counter == state.nprocs` (with `++total_syncs` on an `int`),
exit tests. -/
def poll_after_read (cfg : Config) (st : bsp_state_t) (total_syncs extmem_corrupted : Int)
    (env : PollEnv) (evs : List Event) : PollResult :=
  let c := tally cfg st extmem_corrupted
  let m := check_messages st env.msgflag_write_ok
  if c.sync_counter = m.1.nprocs then
    match barrier_release cfg m.1 env with
    | none =>
      ⟨m.1, wrap_int (total_syncs + 1), c.extmem_corrupted, evs ++ m.2, Ret.undefined, false,
        false⟩
    | some (s, e) => poll_exit s (wrap_int (total_syncs + 1)) c (evs ++ m.2 ++ e)
  else poll_exit m.1 total_syncs c (evs ++ m.2)

/-- One iteration of the `for (;;)` loop of `ebsp_spmd`. -/
def poll_iteration (cfg : Config) (st : bsp_state_t) (total_syncs extmem_corrupted : Int)
    (env : PollEnv) : PollResult :=
  let t := _update_remote_timer st env.clock env.timer_write_ok
  if !env.read_ok then
    ⟨t.1, total_syncs, extmem_corrupted, t.2 ++ [Event.read_head false],
      Ret.returned 0, false, false⟩
  else
    poll_after_read cfg (read_sync_part t.1 env) total_syncs extmem_corrupted env
      (t.2 ++ [Event.read_head true])

/-- Result of the whole poll loop: the state and counters at its end, the
events, the number of iterations entered, and how it ended: `Ret.returned 0`
(the `return 0` inside the loop), `Ret.undefined`, `Ret.polling` with
`exited = true` (a `break`), or `Ret.polling` with `exited = false` (the recorded
answers ran out while the loop was still going). -/
structure LoopResult where
  st : bsp_state_t
  total_syncs : Int
  extmem_corrupted : Int
  events : List Event
  iterations : Nat
  outcome : Ret
  exited : Bool
  aborted : Bool

/-- The `for (;;)` loop of `ebsp_spmd`, run against the recorded answers of the
hardware, one `PollEnv` per iteration. -/
def poll_loop (cfg : Config) : bsp_state_t → Int → Int → List PollEnv → LoopResult
  | st, ts, ec, [] => ⟨st, ts, ec, [], 0, Ret.polling, false, false⟩
  | st, ts, ec, env :: rest =>
    let r := poll_iteration cfg st ts ec env
    if r.outcome ≠ Ret.polling ∨ r.exit_abort ∨ r.exit_finish then
      ⟨r.st, r.total_syncs, r.extmem_corrupted, r.events, 1, r.outcome,
        r.outcome = Ret.polling, r.exit_abort⟩
    else
      let l := poll_loop cfg r.st r.total_syncs r.extmem_corrupted rest
      { l with events := r.events ++ l.events, iterations := l.iterations + 1 }

/-- Answers of the hardware layer during one call of `ebsp_spmd`. -/
structure SpmdEnv where
  init_write_ok : Bool
  clock_start : timespec
  clock_timer : timespec
  timer_write_ok : Bool
  start_ok : Bool
  polls : List PollEnv
  final_read : Option ebsp_comm_buf

/-- Result of `ebsp_spmd`. -/
structure SpmdResult where
  ret : Ret
  st : bsp_state_t
  events : List Event
  iterations : Nat

/-- The function `ebsp_spmd`. -/
def ebsp_spmd (cfg : Config) (st : bsp_state_t) (env : SpmdEnv) : SpmdResult :=
  let cb0 : ebsp_comm_buf := { st.comm_buf with
    nprocs := st.nprocs_used
    syncstate := fill_syncstate st.comm_buf.syncstate st.nprocs cfg.STATE_INIT }
  let st0 : bsp_state_t := { st with comm_buf := cb0 }
  if !env.init_write_ok then
    ⟨Ret.returned 0, st0, [Event.write_comm_buf cb0 false], 0⟩
  else
    let st1 : bsp_state_t := { st0 with ts_start := env.clock_start }
    let t := _update_remote_timer st1 env.clock_timer env.timer_write_ok
    let evs := [Event.write_comm_buf cb0 true] ++ t.2
    if !env.start_ok then
      ⟨Ret.returned 0, t.1, evs ++ [Event.start_group false], 0⟩
    else
      let l := poll_loop cfg t.1 0 0 env.polls
      let evl := evs ++ [Event.start_group true] ++ l.events
      if l.outcome ≠ Ret.polling ∨ !l.exited then
        ⟨l.outcome, l.st, evl, l.iterations⟩
      else
        match env.final_read with
        | none => ⟨Ret.returned 0, l.st, evl ++ [Event.read_full false], l.iterations⟩
        | some cb =>
          let st3 : bsp_state_t := { l.st with comm_buf := cb }
          let ecb : List Event :=
            match st3.end_callback with
            | some f => [Event.end_callback f]
            | none => []
          ⟨Ret.returned 1, st3, evl ++ [Event.read_full true] ++ ecb, l.iterations⟩

/-! ## Concrete inputs used to evaluate the model -/

/-- A state on the 16-slot configuration `cfg16`: a board of `nprocs` cores,
a work-group of `nprocs_used` cores in a grid with `cols` columns, the given
mirror of the syncstate array, sync callback `1` and end callback `2`
registered. -/
def demo_state (nprocs nprocs_used cols : Int) (syncstate : List Int) : bsp_state_t :=
  { zero_state cfg16 with
    nprocs := nprocs
    nprocs_used := nprocs_used
    rows := Int.tdiv nprocs_used cols
    cols := cols
    platform := ⟨4, 4⟩
    comm_buf := { zero_comm_buf cfg16 with syncstate := syncstate, nprocs := nprocs_used }
    sync_callback := some 1
    end_callback := some 2 }

/-- Answers of the hardware for one poll iteration: the prefix read succeeds
and delivers `syncstate` and `msgflag`; every write of the iteration succeeds
or fails according to `writes_ok`. -/
def demo_poll (syncstate : List Int) (msgflag : Int) (writes_ok : Bool) : PollEnv where
  clock := ⟨0, 0⟩
  timer_write_ok := writes_ok
  read_ok := true
  rd_syncstate := syncstate
  rd_syncstate_ptr := 0
  rd_msgbuf := List.replicate 8 0
  rd_msgflag := msgflag
  msgflag_write_ok := writes_ok
  syncstate_write_ok := writes_ok
  core_write_ok := fun _ => writes_ok

/-- Sixteen slots of which the first four read `STATE_SYNC` (code 2 in `cfg16`)
and the remaining twelve still hold `STATE_INIT` (code 0), the value `ebsp_spmd`
stored in them. -/
def four_of_sixteen_sync : List Int := List.replicate 4 2 ++ List.replicate 12 0


/-- One run of `ebsp_spmd` on the full 2-core work-group of `demo_state 2 2 2`
in which every read and every elapsed-time write succeeds.  Iteration 1 sees a
debug message and both cores at `STATE_SYNC` (code 2), and the three writes it
issues through `_write_extmem` and `_write_core_syncstate` (debug-mailbox reset,
bulk syncstate, per-core `STATE_CONTINUE`) all fail; iteration 2 sees both cores
at `STATE_FINISH` (code 3). -/
def failing_release_writes_run : SpmdEnv where
  init_write_ok := true
  clock_start := ⟨0, 0⟩
  clock_timer := ⟨0, 0⟩
  timer_write_ok := true
  start_ok := true
  polls := [{ demo_poll [2, 2] 1 false with timer_write_ok := true }, demo_poll [3, 3] 0 true]
  final_read := some (zero_comm_buf cfg16)

/-- A run that ends normally after one iteration. -/
def finishing_run : SpmdEnv where
  init_write_ok := true
  clock_start := ⟨0, 0⟩
  clock_timer := ⟨0, 0⟩
  timer_write_ok := true
  start_ok := true
  polls := [demo_poll [3, 3] 0 true]
  final_read := some (zero_comm_buf cfg16)



/-- The same answers of the hardware, except that every write issued inside
the poll iteration fails. -/
def PollEnv.fail_writes (env : PollEnv) : PollEnv :=
  { env with
    timer_write_ok := false
    msgflag_write_ok := false
    syncstate_write_ok := false
    core_write_ok := fun _ => false }

/-- The same run, except that every write issued inside the poll loop fails. -/
def SpmdEnv.fail_loop_writes (env : SpmdEnv) : SpmdEnv :=
  { env with polls := env.polls.map PollEnv.fail_writes }


/-- Everything of a poll iteration's result except the event log. -/
def PollResult.control (r : PollResult) : bsp_state_t × Int × Int × Ret × Bool × Bool :=
  (r.st, r.total_syncs, r.extmem_corrupted, r.outcome, r.exit_abort, r.exit_finish)

/-- Everything of the poll loop's result except the event log. -/
def LoopResult.control (l : LoopResult) : bsp_state_t × Int × Int × Nat × Ret × Bool × Bool :=
  (l.st, l.total_syncs, l.extmem_corrupted, l.iterations, l.outcome, l.exited, l.aborted)


/-! ## The message queue: `ebsp_send_down`, `ebsp_get_tag`, `ebsp_move`, ... -/

/-- Conversion of an `int` to `unsigned int` (also the conversion of an `int`
byte count to the 32-bit `size_t` of the target). -/
def to_unsigned (x : Int) : Nat := (x % 4294967296).toNat

/-- Conversion of an `unsigned int` to `int`. -/
def to_signed (n : Nat) : Int :=
  if n % 4294967296 < 2147483648 then ((n % 4294967296 : Nat) : Int)
  else ((n % 4294967296 : Nat) : Int) - 4294967296

/-- Host address of `state.comm_buf.data_payloads.buf[0]`. -/
def buf_addr (cfg : Config) : Nat := (cfg.comm_buf_addr + cfg.buf_offset) % 4294967296

/-- The function `_arm_to_e_pointer`:
`(unsigned int)ptr - (unsigned int)&state.comm_buf + COMMBUF_EADDR`. -/
def _arm_to_e_pointer (cfg : Config) (ptr : Nat) : Nat :=
  to_unsigned ((ptr : Int) - (cfg.comm_buf_addr : Int) + (cfg.COMMBUF_EADDR : Int))

/-- The function `_e_to_arm_pointer`:
`(unsigned int)ptr - COMMBUF_EADDR + (unsigned int)&state.comm_buf`. -/
def _e_to_arm_pointer (cfg : Config) (ptr : Nat) : Nat :=
  to_unsigned ((ptr : Int) - (cfg.COMMBUF_EADDR : Int) + (cfg.comm_buf_addr : Int))

/-- Index into `data_payloads.buf` that a host address designates. -/
def arena_offset (cfg : Config) (ptr : Nat) : Nat :=
  to_unsigned ((ptr : Int) - (buf_addr cfg : Int))

/-- The call `memcpy(dst, src, n)` with `dst` a host address inside the payload
arena and `src` a caller buffer: `none` (undefined) unless the `n` bytes exist
in `src` and fit the arena at `dst`. -/
def memcpy_to_buf (cfg : Config) (buf : List Nat) (dst : Nat) (src : List Nat) (n : Nat) :
    Option (List Nat) :=
  if n ≤ src.length ∧ arena_offset cfg dst + n ≤ buf.length then
    some (buf.take (arena_offset cfg dst) ++ src.take n ++ buf.drop (arena_offset cfg dst + n))
  else none

/-- The call `memcpy(dst, src, n)` with `src` a host address inside the payload
arena: the bytes stored into the caller buffer `dst`; `none` (undefined) unless
the `n` bytes lie inside the arena. -/
def memcpy_from_buf (cfg : Config) (buf : List Nat) (src : Nat) (n : Nat) :
    Option (List Nat) :=
  if arena_offset cfg src + n ≤ buf.length then
    some ((buf.drop (arena_offset cfg src)).take n)
  else none

/-- The two early returns of `ebsp_send_down`:
`index >= MAX_MESSAGES` and `payload_offset + total_nbytes > MAX_PAYLOAD_SIZE`,
both computed on `unsigned int`. -/
def send_down_rejects (cfg : Config) (cb : ebsp_comm_buf) (nbytes : Int) : Bool :=
  decide (cb.count ≥ cfg.MAX_MESSAGES) ||
  decide ((cb.buffer_size + to_unsigned (cb.tagsize + nbytes)) % 4294967296
    > cfg.MAX_PAYLOAD_SIZE)

/-- The function `ebsp_send_down(pid, tag, payload, nbytes)`; `tag` and
`payload` are the caller buffers the two pointers designate. -/
def ebsp_send_down (cfg : Config) (st : bsp_state_t) (pid : Int) (tag payload : List Nat)
    (nbytes : Int) : Option bsp_state_t :=
  let cb := st.comm_buf
  let index := cb.count
  let payload_offset := cb.buffer_size
  let total_nbytes := to_unsigned (cb.tagsize + nbytes)
  if send_down_rejects cfg cb nbytes then some st
  else
    let tag_ptr := (buf_addr cfg + payload_offset) % 4294967296
    let payload_offset2 := (payload_offset + to_unsigned cb.tagsize) % 4294967296
    let payload_ptr := (buf_addr cfg + payload_offset2) % 4294967296
    let hdr : ebsp_message_header :=
      ⟨pid, _arm_to_e_pointer cfg tag_ptr, _arm_to_e_pointer cfg payload_ptr, nbytes⟩
    match memcpy_to_buf cfg cb.buf tag_ptr tag (to_unsigned cb.tagsize) with
    | none => none
    | some buf1 =>
      match memcpy_to_buf cfg buf1 payload_ptr payload (to_unsigned nbytes) with
      | none => none
      | some buf2 =>
        some { st with comm_buf := { cb with
          count := (cb.count + 1) % 4294967296
          buffer_size := (cb.buffer_size + total_nbytes) % 4294967296
          message := cb.message.set index hdr
          buf := buf2 } }

/-- The function `ebsp_set_tagsize`: the new state and the value left in
`*tag_bytes`. -/
def ebsp_set_tagsize (st : bsp_state_t) (tag_bytes : Int) : bsp_state_t × Int :=
  ({ st with comm_buf := { st.comm_buf with tagsize := tag_bytes } }, st.comm_buf.tagsize)

/-- The function `ebsp_get_tagsize`. -/
def ebsp_get_tagsize (st : bsp_state_t) : Int := st.comm_buf.tagsize

/-- The function `_next_queue_message`: the index `i` of the header
`&q->message[i]` it returns, `none` for the null pointer.  The comparison
`state.message_index < q->count` is made on `unsigned int`. -/
def _next_queue_message (st : bsp_state_t) : Option Int :=
  if to_unsigned st.message_index < st.comm_buf.count then some st.message_index else none

/-- The function `_pop_queue_message`: `state.message_index++` on an `int`. -/
def _pop_queue_message (st : bsp_state_t) : bsp_state_t :=
  { st with message_index := wrap_int (st.message_index + 1) }

/-- Reading `q->message[i]`; `none` (undefined) outside the array. -/
def message_at (st : bsp_state_t) (i : Int) : Option ebsp_message_header :=
  if 0 ≤ i then st.comm_buf.message[i.toNat]? else none

/-- The function `ebsp_get_tag(status, tag)`: the value stored in `*status` and
the bytes stored in the caller buffer `tag` (`none` when it is left alone). -/
def ebsp_get_tag (cfg : Config) (st : bsp_state_t) : Option (Int × Option (List Nat)) :=
  match _next_queue_message st with
  | none => some (-1, none)
  | some i =>
    match message_at st i with
    | none => none
    | some m =>
      match memcpy_from_buf cfg st.comm_buf.buf (_e_to_arm_pointer cfg m.tag)
          (to_unsigned st.comm_buf.tagsize) with
      | none => none
      | some bytes => some (m.nbytes, some bytes)

/-- The function `ebsp_move(payload, buffer_size)`: the new state and the bytes
stored in the caller buffer `payload` (empty when nothing is copied). -/
def ebsp_move (cfg : Config) (st : bsp_state_t) (buffer_size : Int) :
    Option (bsp_state_t × List Nat) :=
  let m := _next_queue_message st
  let st1 := _pop_queue_message st
  match m with
  | none => some (st1, [])
  | some i =>
    if buffer_size = 0 then some (st1, [])
    else
      match message_at st i with
      | none => none
      | some m =>
        let n := if m.nbytes < buffer_size then m.nbytes else buffer_size
        match memcpy_from_buf cfg st.comm_buf.buf (_e_to_arm_pointer cfg m.payload)
            (to_unsigned n) with
        | none => none
        | some bytes => some (st1, bytes)

/-- The function `ebsp_hpmove(tag_ptr_buf, payload_ptr_buf)`: the new state, the
return value, and the two host addresses stored through the arguments (`none`
when they are left alone). -/
def ebsp_hpmove (cfg : Config) (st : bsp_state_t) :
    Option (bsp_state_t × Int × Option (Nat × Nat)) :=
  let m := _next_queue_message st
  let st1 := _pop_queue_message st
  match m with
  | none => some (st1, -1, none)
  | some i =>
    match message_at st i with
    | none => none
    | some m =>
      some (st1, m.nbytes, some (_e_to_arm_pointer cfg m.tag, _e_to_arm_pointer cfg m.payload))

/-- The loop `for (; mindex < qsize; mindex++)` of `ebsp_qsize`, which runs
`qsize - mindex` times when that is positive: `steps` is the number of
iterations left. -/
def qsize_loop (st : bsp_state_t) : Nat → Int → Int → Int → Option (Int × Int)
  | 0, _, packets, accum_bytes => some (packets, accum_bytes)
  | steps + 1, mindex, packets, accum_bytes =>
    match message_at st mindex with
    | none => none
    | some m =>
      qsize_loop st steps (mindex + 1) (packets + 1) (wrap_int (accum_bytes + m.nbytes))

/-- The function `ebsp_qsize(packets, accum_bytes)`: the values left in
`*packets` and `*accum_bytes`. -/
def ebsp_qsize (st : bsp_state_t) : Option (Int × Int) :=
  let mindex := st.message_index
  let qsize := to_signed st.comm_buf.count
  qsize_loop st (qsize - mindex).toNat mindex 0 0

/-- Layout and type constraints of a communication buffer: the arrays have
their declared sizes and the two `unsigned int` fields are 32-bit values. -/
def ebsp_comm_buf.wf (cfg : Config) (cb : ebsp_comm_buf) : Prop :=
  cb.message.length = cfg.MAX_MESSAGES ∧ cb.buf.length = cfg.MAX_PAYLOAD_SIZE ∧
  cb.count < 4294967296 ∧ cb.buffer_size < 4294967296

instance (cfg : Config) (cb : ebsp_comm_buf) : Decidable (cb.wf cfg) := by
  unfold ebsp_comm_buf.wf; infer_instance


/-! ## Lifecycle: `bsp_init`, `bsp_begin`, `bsp_end` -/

/-- Answers of the system and of the hardware layer during `bsp_init`:
the directory `init_application_path` stores, whether `access` finds the
executable, the results of `e_init` and `e_reset_system`, and the platform
description (`none` when `e_get_platform_info` fails). -/
structure InitEnv where
  e_directory : List Nat
  access_ok : Bool
  e_init_ok : Bool
  reset_ok : Bool
  platform : Option e_platform_t

/-- The function `bsp_init(_e_name, argc, argv)`.  `snprintf` with size
`sizeof(state.e_fullpath) = 1024` stores at most 1023 bytes of the
concatenation. -/
def bsp_init (rt : Runtime) (e_name : List Nat) (env : InitEnv) : Int × Runtime :=
  if rt.bsp_initialized ≠ 0 then (0, rt)
  else
    let st1 : bsp_state_t := { rt.state with
      e_directory := env.e_directory
      e_fullpath := (env.e_directory ++ e_name).take 1023 }
    if !env.access_ok then (0, { rt with state := st1 })
    else if !env.e_init_ok then (0, { rt with state := st1 })
    else if !env.reset_ok then (0, { rt with state := st1 })
    else
      match env.platform with
      | none => (0, { rt with state := st1 })
      | some p =>
        (1, { state := { st1 with platform := p, nprocs := p.rows * p.cols },
              bsp_initialized := 1 })

/-- Answers of the hardware layer during `bsp_begin`: the results of `e_open`,
`e_reset_group`, `e_load_group` and the two `e_alloc`, and the handles they
fill in. -/
structure BeginEnv where
  open_ok : Bool
  dev : Nat
  reset_ok : Bool
  load_ok : Bool
  alloc_comm_ok : Bool
  emem : Nat
  alloc_malloc_ok : Bool
  emem_malloc : Nat

/-- Every hardware call of `bsp_begin` succeeds. -/
def BeginEnv.all_ok (env : BeginEnv) : Prop :=
  env.open_ok = true ∧ env.reset_ok = true ∧ env.load_ok = true ∧
  env.alloc_comm_ok = true ∧ env.alloc_malloc_ok = true

instance (env : BeginEnv) : Decidable env.all_ok := by
  unfold BeginEnv.all_ok; infer_instance

/-- The function `bsp_begin(nprocs)`.  The two divisions are C divisions;
dividing by zero is undefined. -/
def bsp_begin (cfg : Config) (rt : Runtime) (nprocs : Int) (env : BeginEnv) : Ret × Runtime :=
  if nprocs < 1 ∨ nprocs > (cfg._NPROCS : Int) then (Ret.returned 0, rt)
  else if rt.state.platform.rows = 0 then (Ret.undefined, rt)
  else if Int.tdiv nprocs rt.state.platform.rows = 0 then
    (Ret.undefined,
      { rt with state := { rt.state with rows := Int.tdiv nprocs rt.state.platform.rows } })
  else
    let st1 : bsp_state_t := { rt.state with
      rows := Int.tdiv nprocs rt.state.platform.rows
      cols := Int.tdiv nprocs (Int.tdiv nprocs rt.state.platform.rows)
      nprocs_used := nprocs
      num_vars_registered := 0 }
    let st2 : bsp_state_t := { st1 with dev := env.dev }
    if !env.open_ok then (Ret.returned 0, { rt with state := st2 })
    else if !env.reset_ok then (Ret.returned 0, { rt with state := st2 })
    else if !env.load_ok then (Ret.returned 0, { rt with state := st2 })
    else
      let st3 : bsp_state_t := { st2 with emem := env.emem }
      if !env.alloc_comm_ok then (Ret.returned 0, { rt with state := st3 })
      else
        let st4 : bsp_state_t := { st3 with emem_malloc := env.emem_malloc }
        if !env.alloc_malloc_ok then (Ret.returned 0, { rt with state := st4 })
        else
          (Ret.returned 1, { rt with state := { st4 with comm_buf := zero_comm_buf cfg } })

/-- The function `bsp_end`; `finalize_ok` is the answer of `e_finalize`.  The
statements run in the order of the source: `memset(&state, 0, sizeof(state))`,
`bsp_initialized = 0`, then the test of `state.end_callback`. -/
def bsp_end (cfg : Config) (rt : Runtime) (finalize_ok : Bool) : Int × Runtime × List Event :=
  if rt.bsp_initialized = 0 then (0, rt, [])
  else if !finalize_ok then (0, rt, [Event.free_emem, Event.finalize false])
  else
    let st1 : bsp_state_t := zero_state cfg
    let cb : List Event :=
      match st1.end_callback with
      | some f => [Event.end_callback f]
      | none => []
    (1, { state := st1, bsp_initialized := 0 }, [Event.free_emem, Event.finalize true] ++ cb)

/-- The function `bsp_nprocs`. -/
def bsp_nprocs (st : bsp_state_t) : Int := st.nprocs

/-- The call `ebsp_spmd()` on the two globals: `bsp_initialized` is neither read
nor written. -/
def Runtime.ebsp_spmd (cfg : Config) (rt : Runtime) (env : SpmdEnv) : Ret × Runtime × List Event :=
  ((EpiphanyBSP.ebsp_spmd cfg rt.state env).ret,
    { rt with state := (EpiphanyBSP.ebsp_spmd cfg rt.state env).st },
    (EpiphanyBSP.ebsp_spmd cfg rt.state env).events)


/-- Answers of the hardware layer for a `bsp_begin` in which every call
succeeds. -/
def begin_ok : BeginEnv := ⟨true, 1, true, true, true, 2, true, 3⟩

/-- The runtime a successful `bsp_init` leaves on a board of 4 x 4 cores. -/
def rt_4x4 : Runtime :=
  { state := { zero_state cfg16 with nprocs := 16, platform := ⟨4, 4⟩ }, bsp_initialized := 1 }

/-- The runtime of a process that has not called `bsp_init`: both globals are
zero. -/
def rt_fresh : Runtime := { state := zero_state cfg16, bsp_initialized := 0 }


/-- The state `ebsp_send_down` produces when it accepts a message: `ts` bytes
of tag and `n` bytes of payload are stored at the arena cursor `bs`. -/
def accepted_state (cfg : Config) (st : bsp_state_t) (pid : Int) (tag payload : List Nat)
    (ts n : Nat) : bsp_state_t :=
  { st with comm_buf := { st.comm_buf with
      count := st.comm_buf.count + 1
      buffer_size := st.comm_buf.buffer_size + ts + n
      message := st.comm_buf.message.set st.comm_buf.count
        ⟨pid, _arm_to_e_pointer cfg ((buf_addr cfg + st.comm_buf.buffer_size) % 4294967296),
          _arm_to_e_pointer cfg ((buf_addr cfg + (st.comm_buf.buffer_size + ts)) % 4294967296),
          (n : Int)⟩
      buf := st.comm_buf.buf.take st.comm_buf.buffer_size ++
        (tag.take ts ++ (payload.take n ++ st.comm_buf.buf.drop (st.comm_buf.buffer_size + ts + n))) } }


/-- A state of the 16-slot configuration in which one 2-byte message has been
queued with tag size 0 and the tag size has then been set to `INT_MAX` with
`ebsp_set_tagsize`. -/
def wrap_state : bsp_state_t :=
  { demo_state 2 2 2 [0, 0] with
    comm_buf := { zero_comm_buf cfg16 with
      count := 1
      buffer_size := 2
      tagsize := 2147483647
      message := [⟨0, 0x8f000400, 0x8f000400, 2⟩, zero_header, zero_header, zero_header]
      buf := [7, 7] ++ List.replicate 30 0 } }


/-- A state whose arena cursor holds the largest `unsigned int`, tag size 0. -/
def wrap_state_cursor : bsp_state_t :=
  { demo_state 2 2 2 [0, 0] with
    comm_buf := { zero_comm_buf cfg16 with buffer_size := 4294967295 } }

/-- A consuming call: `ebsp_move(payload, buffer_size)` or `ebsp_hpmove(...)`. -/
inductive Consume where
  | move (buffer_size : Int)
  | hpmove
deriving DecidableEq, Repr

/-- The state after one consuming call; `none` when the call is undefined. -/
def consume (cfg : Config) (st : bsp_state_t) : Consume → Option bsp_state_t
  | Consume.move buffer_size => (ebsp_move cfg st buffer_size).map Prod.fst
  | Consume.hpmove => (ebsp_hpmove cfg st).map Prod.fst

/-- The state after a sequence of consuming calls. -/
def consume_all (cfg : Config) : bsp_state_t → List Consume → Option bsp_state_t
  | st, [] => some st
  | st, c :: rest =>
    match consume cfg st c with
    | none => none
    | some st1 => consume_all cfg st1 rest

/-- The caller passes a buffer capacity that is not negative. -/
def Consume.ok : Consume → Prop
  | Consume.move buffer_size => 0 ≤ buffer_size
  | Consume.hpmove => True

instance (c : Consume) : Decidable c.ok := by
  cases c <;> unfold Consume.ok <;> infer_instance

/-- The queue holds `count` messages: the headers `0 .. count - 1` exist and
each designates `nbytes >= 0` payload bytes inside the payload arena. -/
def queue_ok (cfg : Config) (cb : ebsp_comm_buf) : Prop :=
  cb.count ≤ cb.message.length ∧ cb.count < 2147483648 ∧ cb.buf.length < 2147483648 ∧
  ∀ h ∈ cb.message.take cb.count, 0 ≤ h.nbytes ∧
    arena_offset cfg (_e_to_arm_pointer cfg h.payload) + h.nbytes.toNat ≤ cb.buf.length

instance (cfg : Config) (cb : ebsp_comm_buf) : Decidable (queue_ok cfg cb) := by
  unfold queue_ok; infer_instance

/-- A queue of one 2-byte message on the 16-slot configuration, cursor at 0. -/
def one_message_state : bsp_state_t :=
  { demo_state 2 2 2 [0, 0] with
    comm_buf := { zero_comm_buf cfg16 with
      count := 1
      buffer_size := 2
      message := [⟨0, 0x8f000400, 0x8f000400, 2⟩, zero_header, zero_header, zero_header]
      buf := [7, 8] ++ List.replicate 30 0 } }


/-- A host call that touches the queue before `ebsp_spmd`:
`ebsp_send_down(pid, tag, payload, nbytes)` or `ebsp_set_tagsize(&tag_bytes)`. -/
inductive QueueOp where
  | send (pid : Int) (tag payload : List Nat) (nbytes : Int)
  | set_tagsize (tag_bytes : Int)
deriving DecidableEq, Repr

/-- The state after one queue call; `none` when the call is undefined. -/
def queue_step (cfg : Config) (st : bsp_state_t) : QueueOp → Option bsp_state_t
  | QueueOp.send pid tag payload nbytes => ebsp_send_down cfg st pid tag payload nbytes
  | QueueOp.set_tagsize tag_bytes => some (ebsp_set_tagsize st tag_bytes).1

/-- The state after a sequence of queue calls. -/
def queue_run (cfg : Config) : bsp_state_t → List QueueOp → Option bsp_state_t
  | st, [] => some st
  | st, op :: rest =>
    match queue_step cfg st op with
    | none => none
    | some st1 => queue_run cfg st1 rest

/-- The arguments of a queue call are sizes, given the tag size in force: a
payload length is not negative, the two buffers hold `tagsize` and `nbytes`
bytes, `tagsize + nbytes` is an `int`; a new tag size is not negative. -/
def QueueOp.ok (tagsize : Int) : QueueOp → Prop
  | QueueOp.send _ tag payload nbytes =>
    0 ≤ nbytes ∧ nbytes ≤ (payload.length : Int) ∧
    tagsize ≤ (tag.length : Int) ∧ tagsize + nbytes < 2147483648
  | QueueOp.set_tagsize tag_bytes => 0 ≤ tag_bytes

instance (tagsize : Int) (op : QueueOp) : Decidable (op.ok tagsize) := by
  cases op <;> unfold QueueOp.ok <;> infer_instance

/-- The tag size in force after a queue call: the argument of
`ebsp_set_tagsize`; `ebsp_send_down` has no assignment to `tagsize`. -/
def QueueOp.tagsize_after (tagsize : Int) : QueueOp → Int
  | QueueOp.send _ _ _ _ => tagsize
  | QueueOp.set_tagsize tag_bytes => tag_bytes

/-- Every call of the sequence has arguments that are sizes, the first call
being made with tag size `tagsize` in force.  The condition is on the arguments
alone: it says nothing about what the calls do. -/
def args_are_sizes : Int → List QueueOp → Prop
  | _, [] => True
  | tagsize, op :: rest => op.ok tagsize ∧ args_are_sizes (op.tagsize_after tagsize) rest

/-- Arena index of the tag a header designates. -/
def tag_offset (cfg : Config) (h : ebsp_message_header) : Nat :=
  arena_offset cfg (_e_to_arm_pointer cfg h.tag)

/-- Arena index of the payload a header designates. -/
def payload_offset (cfg : Config) (h : ebsp_message_header) : Nat :=
  arena_offset cfg (_e_to_arm_pointer cfg h.payload)

/-- Arena index one past the last payload byte a header designates. -/
def region_end (cfg : Config) (h : ebsp_message_header) : Nat :=
  payload_offset cfg h + h.nbytes.toNat

/-- Invariant of the queue between host calls: the buffer has its layout, the
count and the arena cursor are within their capacities, the tag size is not
negative, and the region of every queued message lies below the cursor. -/
def arena_inv (cfg : Config) (st : bsp_state_t) : Prop :=
  st.comm_buf.wf cfg ∧ st.comm_buf.count ≤ cfg.MAX_MESSAGES ∧
  st.comm_buf.buffer_size ≤ cfg.MAX_PAYLOAD_SIZE ∧ 0 ≤ st.comm_buf.tagsize ∧
  ∀ h ∈ st.comm_buf.message.take st.comm_buf.count,
    tag_offset cfg h ≤ payload_offset cfg h ∧ 0 ≤ h.nbytes ∧
    region_end cfg h ≤ st.comm_buf.buffer_size


/-- Deciding `args_are_sizes` call by call. -/
def args_are_sizes_decide :
    (tagsize : Int) → (ops : List QueueOp) → Decidable (args_are_sizes tagsize ops)
  | _, [] => isTrue trivial
  | tagsize, op :: rest =>
    match args_are_sizes_decide (op.tagsize_after tagsize) rest with
    | isTrue h1 =>
      if h2 : op.ok tagsize then isTrue (by unfold args_are_sizes; exact ⟨h2, h1⟩)
      else isFalse (by unfold args_are_sizes; exact fun hh => h2 hh.1)
    | isFalse h1 => isFalse (by unfold args_are_sizes; exact fun hh => h1 hh.2)

instance (tagsize : Int) (ops : List QueueOp) : Decidable (args_are_sizes tagsize ops) :=
  args_are_sizes_decide tagsize ops

/-! ## Calls that read the queue -/

/-- One of the four host calls that read the message queue. -/
inductive QueueCall where
  | get_tag
  | qsize
  | move (buffer_size : Int)
  | hpmove
deriving DecidableEq, Repr

/-- The call is `ebsp_move` or `ebsp_hpmove`. -/
def QueueCall.consuming : QueueCall → Bool
  | QueueCall.move _ => true
  | QueueCall.hpmove => true
  | _ => false

/-- The global `state` after the call; `none` when the call is undefined.
`ebsp_get_tag` and `ebsp_qsize` store only through their pointer arguments
(`status`, `tag`, `packets`, `accum_bytes`): the source has no assignment to
`state` in them, and `ebsp_qsize` advances a local copy `mindex` of the
cursor. -/
def QueueCall.state_after (cfg : Config) (st : bsp_state_t) : QueueCall → Option bsp_state_t
  | QueueCall.get_tag => (ebsp_get_tag cfg st).map (fun _ => st)
  | QueueCall.qsize => (ebsp_qsize st).map (fun _ => st)
  | QueueCall.move buffer_size => (ebsp_move cfg st buffer_size).map Prod.fst
  | QueueCall.hpmove => (ebsp_hpmove cfg st).map Prod.fst

/-- The caller passes a buffer capacity that is not negative. -/
def QueueCall.ok : QueueCall → Prop
  | QueueCall.move buffer_size => 0 ≤ buffer_size
  | _ => True

instance (c : QueueCall) : Decidable c.ok := by
  cases c <;> unfold QueueCall.ok <;> infer_instance

/-- The tag size is a size and the tag of every queued message lies inside the
payload arena. -/
def tags_ok (cfg : Config) (cb : ebsp_comm_buf) : Prop :=
  0 ≤ cb.tagsize ∧
  ∀ h ∈ cb.message.take cb.count,
    arena_offset cfg (_e_to_arm_pointer cfg h.tag) + cb.tagsize.toNat ≤ cb.buf.length

instance (cfg : Config) (cb : ebsp_comm_buf) : Decidable (tags_ok cfg cb) := by
  unfold tags_ok; infer_instance

/-- The queue of `one_message_state` with the cursor at `INT_MAX`. -/
def last_cursor_state : bsp_state_t :=
  { one_message_state with message_index := 2147483647 }

/-! ## Recognised syncstate codes -/

/-- The six values the `switch` of the poll loop has a `case` for. -/
def Config.codes (cfg : Config) : List Int :=
  [cfg.STATE_INIT, cfg.STATE_RUN, cfg.STATE_SYNC, cfg.STATE_FINISH,
    cfg.STATE_CONTINUE, cfg.STATE_ABORT]

/-- The value of a slot falls into the `default` branch of the `switch`. -/
def Config.unrecognised (cfg : Config) (s : Int) : Bool := decide (s ∉ cfg.codes)

/-! ## Staged transfers: `ebsp_send_buffered` -/

/-- The memory `ebsp_send_buffered` works on: the bytes of the caller's buffer
at `src`, the bytes of the chunk of external memory that `ebsp_ext_malloc`
handed out (whatever they are at that moment), and the array
`exmem_next_in_chunk` of per-core chunk addresses. -/
structure staged_memory where
  src : List Nat
  chunk : List Nat
  exmem_next_in_chunk : List Nat
deriving DecidableEq, Repr

/-- The function `ebsp_send_buffered(src, dst_core_id, nbytes)`.  The allocator
`ebsp_ext_malloc` is not part of the sources at hand: its answer
`exmem_in_buffer` (0 is the null pointer) is an input.  The statements are
those of the source, in its order: return when the pointer is null;
`memcpy(src, exmem_in_buffer, nbytes)`, whose first argument is the
destination; store the pointer in `exmem_next_in_chunk[dst_core_id]`.
`none` (undefined) when the copy or the store leaves its object. -/
def ebsp_send_buffered (mem : staged_memory) (exmem_in_buffer : Nat)
    (dst_core_id nbytes : Int) : Option staged_memory :=
  if exmem_in_buffer = 0 then some mem
  else if to_unsigned nbytes ≤ mem.chunk.length ∧ to_unsigned nbytes ≤ mem.src.length then
    if 0 ≤ dst_core_id ∧ dst_core_id.toNat < mem.exmem_next_in_chunk.length then
      some { mem with
        src := mem.chunk.take (to_unsigned nbytes) ++ mem.src.drop (to_unsigned nbytes)
        exmem_next_in_chunk := mem.exmem_next_in_chunk.set dst_core_id.toNat exmem_in_buffer }
    else none
  else none

/-- A 4-byte source buffer, a freshly allocated chunk of 4 zero bytes, and no
chunk registered for either of 2 cores. -/
def staged_demo : staged_memory := ⟨[1, 2, 3, 4], [0, 0, 0, 0], [0, 0]⟩

/-! ## Properties -/

/-! ### Counting the syncstate slots -/

theorem codes_ne (cfg : Config) (hd : cfg.codes_distinct) :
    cfg.STATE_INIT ≠ cfg.STATE_SYNC ∧ cfg.STATE_RUN ≠ cfg.STATE_SYNC ∧
    cfg.STATE_INIT ≠ cfg.STATE_ABORT ∧ cfg.STATE_RUN ≠ cfg.STATE_ABORT ∧
    cfg.STATE_SYNC ≠ cfg.STATE_ABORT ∧ cfg.STATE_FINISH ≠ cfg.STATE_ABORT ∧
    cfg.STATE_CONTINUE ≠ cfg.STATE_ABORT ∧ cfg.STATE_SYNC ≠ cfg.STATE_FINISH ∧
    cfg.STATE_INIT ≠ cfg.STATE_FINISH ∧ cfg.STATE_RUN ≠ cfg.STATE_FINISH := by
  unfold Config.codes_distinct at hd
  simp at hd
  tauto

theorem tally_slot_sync_counter (cfg : Config) (hd : cfg.codes_distinct) (c : Counters) (s : Int) :
    (tally_slot cfg c s).sync_counter
      = c.sync_counter + (if s = cfg.STATE_SYNC then 1 else 0) := by
  obtain ⟨h1, h2, -⟩ := codes_ne cfg hd
  unfold tally_slot
  split_ifs <;> simp_all

theorem tally_slot_abort_counter (cfg : Config) (hd : cfg.codes_distinct) (c : Counters) (s : Int) :
    (tally_slot cfg c s).abort_counter
      = c.abort_counter + (if s = cfg.STATE_ABORT then 1 else 0) := by
  obtain ⟨-, -, h3, h4, h5, h6, h7, -⟩ := codes_ne cfg hd
  unfold tally_slot
  split_ifs <;> simp_all

theorem foldl_sync_counter (cfg : Config) (hd : cfg.codes_distinct) (l : List Int) (c : Counters) :
    (l.foldl (tally_slot cfg) c).sync_counter = c.sync_counter + (l.count cfg.STATE_SYNC : Nat) := by
  induction l generalizing c with
  | nil => simp
  | cons s t ih =>
    rw [List.foldl_cons, ih, tally_slot_sync_counter cfg hd, List.count_cons]
    by_cases h : s = cfg.STATE_SYNC
    · subst h; simp; ring
    · have h2 : ¬ (cfg.STATE_SYNC = s) := fun e => h e.symm
      simp [h, h2]

theorem foldl_abort_counter (cfg : Config) (hd : cfg.codes_distinct) (l : List Int) (c : Counters) :
    (l.foldl (tally_slot cfg) c).abort_counter = c.abort_counter + (l.count cfg.STATE_ABORT : Nat) := by
  induction l generalizing c with
  | nil => simp
  | cons s t ih =>
    rw [List.foldl_cons, ih, tally_slot_abort_counter cfg hd, List.count_cons]
    by_cases h : s = cfg.STATE_ABORT
    · subst h; simp; ring
    · have h2 : ¬ (cfg.STATE_ABORT = s) := fun e => h e.symm
      simp [h, h2]

theorem count_add_count_le (a b : Int) (hab : a ≠ b) (l : List Int) :
    l.count a + l.count b ≤ l.length := by
  induction l with
  | nil => simp
  | cons s t ih =>
    simp only [List.count_cons, List.length_cons]
    by_cases h1 : s = a
    · subst h1
      have : ¬ (s = b) := hab
      simp [this]; omega
    · by_cases h2 : s = b
      · subst h2; simp [h1]; omega
      · simp [h1, h2]; omega

@[simp] theorem update_remote_timer_nprocs (st : bsp_state_t) (c : timespec) (ok : Bool) :
    (_update_remote_timer st c ok).1.nprocs = st.nprocs := rfl

@[simp] theorem update_remote_timer_events (st : bsp_state_t) (c : timespec) (ok : Bool) :
    (_update_remote_timer st c ok).2 = [Event.write_remotetimer ok] := rfl

@[simp] theorem read_sync_part_nprocs (st : bsp_state_t) (env : PollEnv) :
    (read_sync_part st env).nprocs = st.nprocs := rfl

@[simp] theorem read_sync_part_syncstate (st : bsp_state_t) (env : PollEnv) :
    (read_sync_part st env).comm_buf.syncstate = env.rd_syncstate := rfl

theorem check_messages_frame (st : bsp_state_t) (ok : Bool) :
    (check_messages st ok).1.nprocs = st.nprocs ∧
    (check_messages st ok).1.comm_buf.syncstate = st.comm_buf.syncstate ∧
    (∀ e ∈ (check_messages st ok).2, e.is_release = false) := by
  unfold check_messages
  split_ifs <;> simp [Event.is_release]

theorem tally_abort_present (cfg : Config) (hd : cfg.codes_distinct) (st : bsp_state_t)
    (ec : Int) (h : cfg.STATE_ABORT ∈ scanned_slots st) :
    (tally cfg st ec).abort_counter ≠ 0 ∧ (tally cfg st ec).sync_counter ≠ st.nprocs := by
  have hne : cfg.STATE_SYNC ≠ cfg.STATE_ABORT := (codes_ne cfg hd).2.2.2.2.1
  have h1 := count_add_count_le _ _ hne (scanned_slots st)
  have h2 : 0 < (scanned_slots st).count cfg.STATE_ABORT := List.count_pos_iff.mpr h
  have h3 : (scanned_slots st).length ≤ st.nprocs.toNat := by
    unfold scanned_slots; simp
  unfold tally
  rw [foldl_abort_counter cfg hd, foldl_sync_counter cfg hd]
  constructor
  · simp; omega
  · simp; omega

theorem tally_all_sync (cfg : Config) (hd : cfg.codes_distinct) (st : bsp_state_t) (ec : Int)
    (hall : ∀ s ∈ scanned_slots st, s = cfg.STATE_SYNC)
    (hlen : st.nprocs.toNat ≤ st.comm_buf.syncstate.length) (hn : 0 ≤ st.nprocs) :
    (tally cfg st ec).sync_counter = st.nprocs := by
  unfold tally
  rw [foldl_sync_counter cfg hd]
  have h1 : (scanned_slots st).count cfg.STATE_SYNC = (scanned_slots st).length :=
    List.count_eq_length.mpr (fun s hs => (hall s hs).symm)
  have h2 : (scanned_slots st).length = st.nprocs.toNat := by
    unfold scanned_slots; rw [List.length_take]; omega
  rw [h1, h2]
  simp only [zero_add]
  omega

theorem poll_iteration_read_ok (cfg : Config) (st : bsp_state_t) (ts ec : Int) (env : PollEnv)
    (hread : env.read_ok = true) :
    poll_iteration cfg st ts ec env =
      poll_after_read cfg (read_sync_part (_update_remote_timer st env.clock env.timer_write_ok).1 env)
        ts ec env ([Event.write_remotetimer env.timer_write_ok] ++ [Event.read_head true]) := by
  unfold poll_iteration
  simp only [hread, Bool.not_true, Bool.false_eq_true, if_false, update_remote_timer_events]

theorem poll_exit_fields (st : bsp_state_t) (ts : Int) (c : Counters) (evs : List Event) :
    (poll_exit st ts c evs).st = st ∧ (poll_exit st ts c evs).total_syncs = ts ∧
    (∀ f, (poll_exit st ts c evs).events.count (Event.sync_callback f)
      = evs.count (Event.sync_callback f)) ∧
    (∀ e ∈ evs, e ∈ (poll_exit st ts c evs).events) := by
  unfold poll_exit
  split_ifs <;> simp [List.count_append]
  intro e he; exact Or.inl he

theorem poll_exit_outcome (st : bsp_state_t) (ts : Int) (c : Counters) (evs : List Event) :
    (poll_exit st ts c evs).outcome = Ret.polling := by
  unfold poll_exit
  split_ifs <;> rfl

theorem write_all_cores_eq (st : bsp_state_t) (ok : Int → Bool) (v : Int) (l : List Nat) :
    write_cores st ok v l =
      if st.cols = 0 ∧ l ≠ [] then none
      else some (l.map (fun i : Nat =>
        Event.write_core_syncstate i (Int.tdiv i st.cols) (Int.tmod i st.cols) v (ok i))) := by
  induction l with
  | nil => simp [write_cores]
  | cons a t ih =>
    unfold write_cores
    rw [ih]
    unfold _write_core_syncstate _get_p_coords
    by_cases hc : st.cols = 0
    · simp [hc]
    · simp [hc]

theorem barrier_release_eq (cfg : Config) (st : bsp_state_t) (env : PollEnv)
    (hcols : st.cols ≠ 0) :
    barrier_release cfg st env =
      some ({ st with comm_buf := { st.comm_buf with
                syncstate := fill_syncstate st.comm_buf.syncstate st.nprocs cfg.STATE_CONTINUE } },
        (match st.sync_callback with
          | some f => [Event.sync_callback f]
          | none => []) ++
        [Event.write_syncstate
          ((fill_syncstate st.comm_buf.syncstate st.nprocs cfg.STATE_CONTINUE).take cfg._NPROCS)
          env.syncstate_write_ok] ++
        List.map (fun i : Nat => Event.write_core_syncstate i (Int.tdiv i st.cols)
          (Int.tmod i st.cols) cfg.STATE_CONTINUE (env.core_write_ok i))
          (List.range st.nprocs.toNat)) := by
  unfold barrier_release write_all_cores
  simp only [write_all_cores_eq, hcols, false_and, if_false]

/-! ### Barrier release (C1) -/

/-- When every slot `0 .. state.nprocs - 1` reads `STATE_SYNC`, the iteration
performs the barrier release: `total_syncs` is incremented, a registered sync
callback runs exactly once, the slots of the mirror are set to
`STATE_CONTINUE` and the array is written back. -/
theorem full_quorum_release (cfg : Config) (hd : cfg.codes_distinct) (st : bsp_state_t)
    (ts ec : Int) (env : PollEnv) (hread : env.read_ok = true)
    (hall : ∀ s ∈ env.rd_syncstate.take st.nprocs.toNat, s = cfg.STATE_SYNC)
    (hlen : st.nprocs.toNat ≤ env.rd_syncstate.length) (hn : 0 ≤ st.nprocs)
    (hcols : st.cols ≠ 0) :
    (poll_iteration cfg st ts ec env).total_syncs = wrap_int (ts + 1) ∧
    (poll_iteration cfg st ts ec env).st.comm_buf.syncstate =
      List.replicate st.nprocs.toNat cfg.STATE_CONTINUE ++
        env.rd_syncstate.drop st.nprocs.toNat ∧
    (∀ f, st.sync_callback = some f →
      (poll_iteration cfg st ts ec env).events.count (Event.sync_callback f) = 1) ∧
    Event.write_syncstate
      ((List.replicate st.nprocs.toNat cfg.STATE_CONTINUE ++
        env.rd_syncstate.drop st.nprocs.toNat).take cfg._NPROCS) env.syncstate_write_ok
      ∈ (poll_iteration cfg st ts ec env).events := by
  rw [poll_iteration_read_ok cfg st ts ec env hread]
  have hsc := tally_all_sync cfg hd
    (read_sync_part (_update_remote_timer st env.clock env.timer_write_ok).1 env) ec
    (by unfold scanned_slots; exact hall) (by exact hlen) (by exact hn)
  obtain ⟨m1, m2, m3⟩ := check_messages_frame
    (read_sync_part (_update_remote_timer st env.clock env.timer_write_ok).1 env)
    env.msgflag_write_ok
  have hcols' : (check_messages
      (read_sync_part (_update_remote_timer st env.clock env.timer_write_ok).1 env)
      env.msgflag_write_ok).1.cols = st.cols := by
    unfold check_messages; split_ifs <;> rfl
  have hcb : (check_messages
      (read_sync_part (_update_remote_timer st env.clock env.timer_write_ok).1 env)
      env.msgflag_write_ok).1.sync_callback = st.sync_callback := by
    unfold check_messages; split_ifs <;> rfl
  have hfill : fill_syncstate env.rd_syncstate st.nprocs cfg.STATE_CONTINUE =
      List.replicate st.nprocs.toNat cfg.STATE_CONTINUE ++
        env.rd_syncstate.drop st.nprocs.toNat := by
    unfold fill_syncstate; rw [min_eq_left hlen]
  have hm0 : ∀ f, (check_messages
      (read_sync_part (_update_remote_timer st env.clock env.timer_write_ok).1 env)
      env.msgflag_write_ok).2.count (Event.sync_callback f) = 0 := by
    intro f
    rw [List.count_eq_zero]
    intro hmem
    have := m3 _ hmem
    simp [Event.is_release] at this
  have hw0 : ∀ f, (List.map (fun i : Nat => Event.write_core_syncstate i (Int.tdiv i st.cols)
      (Int.tmod i st.cols) cfg.STATE_CONTINUE (env.core_write_ok i))
      (List.range st.nprocs.toNat)).count (Event.sync_callback f) = 0 := by
    intro f
    rw [List.count_eq_zero]
    simp
  unfold poll_after_read
  simp only [hsc, m1, read_sync_part_nprocs, update_remote_timer_nprocs, if_true]
  rw [barrier_release_eq cfg _ env (by rw [hcols']; exact hcols)]
  simp only [m1, m2, hcols', hcb, read_sync_part_nprocs, update_remote_timer_nprocs,
    read_sync_part_syncstate, hfill]
  refine ⟨(poll_exit_fields _ _ _ _).2.1, ?_, ?_, ?_⟩
  · rw [(poll_exit_fields _ _ _ _).1]
  · intro f hf
    rw [(poll_exit_fields _ _ _ _).2.2.1 f]
    simp [List.count_append, hm0, hw0, hf, List.count_cons]
  · apply (poll_exit_fields _ _ _ _).2.2.2
    simp

theorem subgroup_iter :
    poll_iteration cfg16 (demo_state 16 4 4 four_of_sixteen_sync) 0 0
      (demo_poll four_of_sixteen_sync 0 true) =
    ⟨demo_state 16 4 4 four_of_sixteen_sync, 0, 0,
      [Event.write_remotetimer true, Event.read_head true], Ret.polling, false, false⟩ := by
  rfl

/-- Claim C1 (barrier release on a quorum of the active cores), evaluated on a
work-group of 4 cores on a board of 16.  The four active slots read
`STATE_SYNC`, the twelve others hold the `STATE_INIT` that `ebsp_spmd` stored in
them, a sync callback is registered and every transfer succeeds.  However many
iterations `n` are run on these answers, the loop is still polling: no barrier
release takes place (the sync counter stays 0, no release event occurs) and the
four active slots still read `STATE_SYNC` in the mirror. -/
theorem subgroup_quorum_not_released (n : Nat) :
    (poll_loop cfg16 (demo_state 16 4 4 four_of_sixteen_sync) 0 0
      (List.replicate n (demo_poll four_of_sixteen_sync 0 true))).exited = false ∧
    (poll_loop cfg16 (demo_state 16 4 4 four_of_sixteen_sync) 0 0
      (List.replicate n (demo_poll four_of_sixteen_sync 0 true))).outcome = Ret.polling ∧
    (poll_loop cfg16 (demo_state 16 4 4 four_of_sixteen_sync) 0 0
      (List.replicate n (demo_poll four_of_sixteen_sync 0 true))).iterations = n ∧
    (poll_loop cfg16 (demo_state 16 4 4 four_of_sixteen_sync) 0 0
      (List.replicate n (demo_poll four_of_sixteen_sync 0 true))).total_syncs = 0 ∧
    (∀ e ∈ (poll_loop cfg16 (demo_state 16 4 4 four_of_sixteen_sync) 0 0
      (List.replicate n (demo_poll four_of_sixteen_sync 0 true))).events, e.is_release = false) ∧
    (poll_loop cfg16 (demo_state 16 4 4 four_of_sixteen_sync) 0 0
      (List.replicate n (demo_poll four_of_sixteen_sync 0 true))).st.comm_buf.syncstate
      = four_of_sixteen_sync := by
  induction n with
  | zero => simp [poll_loop]; rfl
  | succ k ih =>
    obtain ⟨h1, h2, h3, h4, h5, h6⟩ := ih
    rw [List.replicate_succ]
    unfold poll_loop
    rw [subgroup_iter]
    simp only [ne_eq, not_true_eq_false, Bool.false_eq_true, or_self, if_false]
    refine ⟨h1, h2, by simp [h3], h4, ?_, h6⟩
    intro e he
    simp only [List.mem_append, List.mem_cons, List.mem_singleton, List.not_mem_nil,
      or_false] at he
    rcases he with (rfl | rfl) | he
    · rfl
    · rfl
    · exact h5 e he

/-! ### Abort precedence (C2) -/

/-- With an `ABORT` among the scanned slots the loop body performs no release
and leaves through the abort `break`. -/
theorem poll_after_read_abort (cfg : Config) (hd : cfg.codes_distinct) (st : bsp_state_t)
    (ts ec : Int) (env : PollEnv) (evs : List Event)
    (h : cfg.STATE_ABORT ∈ scanned_slots st) :
    poll_after_read cfg st ts ec env evs =
      ⟨(check_messages st env.msgflag_write_ok).1, ts, (tally cfg st ec).extmem_corrupted,
        evs ++ (check_messages st env.msgflag_write_ok).2 ++ [Event.print_abort],
        Ret.polling, true, false⟩ := by
  obtain ⟨ha, hs⟩ := tally_abort_present cfg hd st ec h
  unfold poll_after_read poll_exit
  simp only [(check_messages_frame st env.msgflag_write_ok).1, hs, if_false, ne_eq, ha,
    not_false_eq_true, if_true]

/-- Claim C2 (abort precedence).  In a poll iteration whose prefix read
succeeds and delivers `STATE_ABORT` in the slot of one core `j` and `STATE_SYNC`
in every other scanned slot, the host performs no barrier release: the sync
counter keeps its value, the mirror holds the slots exactly as read (none is
set to `STATE_CONTINUE`), and the events of the iteration contain no sync
callback, no bulk syncstate write and no per-core syncstate write.  The
iteration prints the abort diagnostic and leaves the loop through the abort
`break`: the poll loop ends in that same iteration, whatever answers the
hardware had in store for later ones.  (The proof needs the `STATE_ABORT` slot
only; what the other slots hold plays no part.) -/
theorem abort_precedence (cfg : Config) (hd : cfg.codes_distinct) (st : bsp_state_t)
    (total_syncs extmem_corrupted : Int) (env : PollEnv) (j : Nat)
    (hread : env.read_ok = true)
    (hj : j < st.nprocs.toNat)
    (habort : env.rd_syncstate[j]? = some cfg.STATE_ABORT)
    (hsync : ∀ i, i < st.nprocs.toNat → i ≠ j → env.rd_syncstate[i]? = some cfg.STATE_SYNC) :
    (poll_iteration cfg st total_syncs extmem_corrupted env).exit_abort = true ∧
    (poll_iteration cfg st total_syncs extmem_corrupted env).outcome = Ret.polling ∧
    Event.print_abort ∈ (poll_iteration cfg st total_syncs extmem_corrupted env).events ∧
    (poll_iteration cfg st total_syncs extmem_corrupted env).total_syncs = total_syncs ∧
    (poll_iteration cfg st total_syncs extmem_corrupted env).st.comm_buf.syncstate
      = env.rd_syncstate ∧
    (∀ e ∈ (poll_iteration cfg st total_syncs extmem_corrupted env).events,
      e.is_release = false) ∧
    ∀ rest : List PollEnv,
      (poll_loop cfg st total_syncs extmem_corrupted (env :: rest)).exited = true ∧
      (poll_loop cfg st total_syncs extmem_corrupted (env :: rest)).aborted = true ∧
      (poll_loop cfg st total_syncs extmem_corrupted (env :: rest)).iterations = 1 := by
  have _ := hsync
  have hmem : cfg.STATE_ABORT ∈
      scanned_slots (read_sync_part (_update_remote_timer st env.clock env.timer_write_ok).1 env) := by
    unfold scanned_slots
    rw [read_sync_part_syncstate, read_sync_part_nprocs, update_remote_timer_nprocs,
      List.mem_iff_getElem?]
    exact ⟨j, by rw [List.getElem?_take]; simp [hj, habort]⟩
  have key := (poll_iteration_read_ok cfg st total_syncs extmem_corrupted env hread).trans
    (poll_after_read_abort cfg hd _ total_syncs extmem_corrupted env _ hmem)
  obtain ⟨-, hss, hev⟩ := check_messages_frame
    (read_sync_part (_update_remote_timer st env.clock env.timer_write_ok).1 env) env.msgflag_write_ok
  refine ⟨by rw [key], by rw [key], by rw [key]; simp, by rw [key], ?_, ?_, ?_⟩
  · rw [key]; simp only [hss, read_sync_part_syncstate]
  · rw [key]
    intro e he
    simp only [List.mem_append, List.mem_singleton,
      List.mem_cons, List.not_mem_nil, or_false] at he
    rcases he with ((rfl | rfl) | he) | rfl
    · rfl
    · rfl
    · exact hev e he
    · rfl
  · intro rest
    unfold poll_loop
    rw [key]
    simp

/-- Instance of `abort_precedence`: core 0 at `STATE_ABORT`, core 1 at `STATE_SYNC`. -/
theorem abort_precedence_witness :
    (poll_iteration cfg16 (demo_state 2 2 2 [0, 0]) 0 0 (demo_poll [5, 2] 0 true)).exit_abort
      = true ∧
    (poll_iteration cfg16 (demo_state 2 2 2 [0, 0]) 0 0 (demo_poll [5, 2] 0 true)).total_syncs
      = 0 :=
  have h := abort_precedence cfg16 (by decide) (demo_state 2 2 2 [0, 0]) 0 0
    (demo_poll [5, 2] 0 true) 0 rfl (by decide) (by decide) (by decide)
  ⟨h.1, h.2.2.2.1⟩

/-! ### Input and output failures in the poll loop (C3) -/

theorem poll_iteration_read_fail (cfg : Config) (st : bsp_state_t) (ts ec : Int) (env : PollEnv)
    (h : env.read_ok = false) :
    (poll_iteration cfg st ts ec env).outcome = Ret.returned 0 := by
  unfold poll_iteration
  simp [h]

theorem poll_after_read_outcome (cfg : Config) (st : bsp_state_t) (ts ec : Int) (env : PollEnv)
    (evs : List Event) :
    (poll_after_read cfg st ts ec env evs).outcome ≠ Ret.returned 0 := by
  unfold poll_after_read
  simp only
  split_ifs
  · split
    · simp
    · rw [poll_exit_outcome]; simp
  · rw [poll_exit_outcome]; simp

theorem poll_iteration_returned (cfg : Config) (st : bsp_state_t) (ts ec : Int) (env : PollEnv)
    (h : (poll_iteration cfg st ts ec env).outcome = Ret.returned 0) : env.read_ok = false := by
  by_contra hr
  have hr2 : env.read_ok = true := by simpa using hr
  rw [poll_iteration_read_ok cfg st ts ec env hr2] at h
  exact poll_after_read_outcome _ _ _ _ _ _ h

theorem poll_loop_read_fail (cfg : Config) (polls : List PollEnv) :
    ∀ (st : bsp_state_t) (ts ec : Int) (k : Nat) (e : PollEnv),
      polls[k]? = some e → e.read_ok = false →
      (poll_loop cfg st ts ec polls).iterations ≤ k + 1 ∧
      ((poll_loop cfg st ts ec polls).iterations = k + 1 →
        (poll_loop cfg st ts ec polls).outcome = Ret.returned 0) := by
  induction polls with
  | nil => intro st ts ec k e h; simp at h
  | cons env rest ih =>
    intro st ts ec k e hk he
    unfold poll_loop
    simp only
    cases k with
    | zero =>
      simp only [List.getElem?_cons_zero, Option.some.injEq] at hk
      subst hk
      have h0 := poll_iteration_read_fail cfg st ts ec env he
      simp [h0]
    | succ k =>
      simp only [List.getElem?_cons_succ] at hk
      split_ifs with hc
      · simp
      · obtain ⟨h1, h2⟩ := ih (poll_iteration cfg st ts ec env).st
          (poll_iteration cfg st ts ec env).total_syncs
          (poll_iteration cfg st ts ec env).extmem_corrupted k e hk he
        exact ⟨by simpa using h1, fun h => h2 (by simpa using h)⟩

theorem poll_loop_reads_ok (cfg : Config) (polls : List PollEnv) :
    ∀ (st : bsp_state_t) (ts ec : Int),
      (poll_loop cfg st ts ec polls).outcome = Ret.polling →
      ∀ (k : Nat) (e : PollEnv), polls[k]? = some e →
        k < (poll_loop cfg st ts ec polls).iterations → e.read_ok = true := by
  induction polls with
  | nil => intro st ts ec _ k e h; simp at h
  | cons env rest ih =>
    intro st ts ec hout k e hk hlt
    unfold poll_loop at hout hlt
    simp only at hout hlt
    have hfirst : env.read_ok = true := by
      by_contra hr
      have hr2 : env.read_ok = false := by simpa using hr
      have h0 := poll_iteration_read_fail cfg st ts ec env hr2
      simp [h0] at hout
    cases k with
    | zero =>
      simp only [List.getElem?_cons_zero, Option.some.injEq] at hk
      subst hk; exact hfirst
    | succ k =>
      simp only [List.getElem?_cons_succ] at hk
      split_ifs at hout hlt with hc
      · simp at hlt
      · exact ih _ _ _ hout k e hk (by simpa using hlt)

theorem poll_iteration_not_one (cfg : Config) (st : bsp_state_t) (ts ec : Int) (env : PollEnv) :
    (poll_iteration cfg st ts ec env).outcome ≠ Ret.returned 1 := by
  unfold poll_iteration poll_after_read
  simp only
  split_ifs
  · simp
  · split
    · simp
    · rw [poll_exit_outcome]; simp
  · rw [poll_exit_outcome]; simp

theorem poll_loop_not_one (cfg : Config) (polls : List PollEnv) :
    ∀ (st : bsp_state_t) (ts ec : Int),
      (poll_loop cfg st ts ec polls).outcome ≠ Ret.returned 1 := by
  induction polls with
  | nil => intro st ts ec; simp [poll_loop]
  | cons env rest ih =>
    intro st ts ec
    unfold poll_loop
    simp only
    split_ifs
    · exact poll_iteration_not_one cfg st ts ec env
    · exact ih _ _ _

theorem barrier_release_fail_writes (cfg : Config) (st : bsp_state_t) (env : PollEnv) :
    (barrier_release cfg st env.fail_writes).map Prod.fst =
      (barrier_release cfg st env).map Prod.fst := by
  unfold barrier_release write_all_cores
  simp only [write_all_cores_eq]
  split_ifs <;> rfl

theorem check_messages_fst (st : bsp_state_t) (ok ok2 : Bool) :
    (check_messages st ok).1 = (check_messages st ok2).1 := by
  unfold check_messages
  split_ifs <;> rfl

theorem poll_exit_control (st : bsp_state_t) (ts : Int) (c : Counters) (evs evs2 : List Event) :
    (poll_exit st ts c evs).control = (poll_exit st ts c evs2).control := by
  unfold poll_exit PollResult.control
  split_ifs <;> rfl

theorem poll_after_read_fail_writes (cfg : Config) (st : bsp_state_t) (ts ec : Int)
    (env : PollEnv) (evs evs2 : List Event) :
    (poll_after_read cfg st ts ec env.fail_writes evs).control =
      (poll_after_read cfg st ts ec env evs2).control := by
  have hb := barrier_release_fail_writes cfg (check_messages st env.msgflag_write_ok).1 env
  unfold poll_after_read
  simp only
  rw [check_messages_fst st env.fail_writes.msgflag_write_ok env.msgflag_write_ok]
  split_ifs with h
  · rcases h1 : barrier_release cfg (check_messages st env.msgflag_write_ok).1 env.fail_writes
      with _ | ⟨s, e⟩ <;>
    rcases h2 : barrier_release cfg (check_messages st env.msgflag_write_ok).1 env
      with _ | ⟨s2, e2⟩ <;> rw [h1, h2] at hb <;> simp at hb
    · rfl
    · subst hb
      exact poll_exit_control _ _ _ _ _
  · exact poll_exit_control _ _ _ _ _

theorem poll_iteration_fail_writes (cfg : Config) (st : bsp_state_t) (ts ec : Int)
    (env : PollEnv) :
    (poll_iteration cfg st ts ec env.fail_writes).control =
      (poll_iteration cfg st ts ec env).control := by
  unfold poll_iteration
  simp only
  have hr : env.fail_writes.read_ok = env.read_ok := rfl
  rw [hr]
  split_ifs
  · rfl
  · exact poll_after_read_fail_writes cfg _ ts ec env _ _

theorem poll_loop_fail_writes (cfg : Config) (polls : List PollEnv) :
    ∀ (st : bsp_state_t) (ts ec : Int),
      (poll_loop cfg st ts ec (polls.map PollEnv.fail_writes)).control =
        (poll_loop cfg st ts ec polls).control := by
  induction polls with
  | nil => intro st ts ec; rfl
  | cons env rest ih =>
    intro st ts ec
    have h := poll_iteration_fail_writes cfg st ts ec env
    simp only [PollResult.control, Prod.mk.injEq] at h
    obtain ⟨h1, h2, h3, h4, h5, h6⟩ := h
    simp only [List.map_cons]
    unfold poll_loop
    simp only [h1, h2, h3, h4, h5, h6]
    split_ifs
    · rfl
    · have := ih (poll_iteration cfg st ts ec env).st (poll_iteration cfg st ts ec env).total_syncs
        (poll_iteration cfg st ts ec env).extmem_corrupted
      simp only [LoopResult.control, Prod.mk.injEq] at this ⊢
      obtain ⟨g1, g2, g3, g4, g5, g6, g7⟩ := this
      exact ⟨g1, g2, g3, by rw [g4], g5, g6, g7⟩

theorem spmd_fail_loop_writes (cfg : Config) (st : bsp_state_t) (env : SpmdEnv) :
    (ebsp_spmd cfg st env.fail_loop_writes).ret = (ebsp_spmd cfg st env).ret ∧
    (ebsp_spmd cfg st env.fail_loop_writes).st = (ebsp_spmd cfg st env).st ∧
    (ebsp_spmd cfg st env.fail_loop_writes).iterations = (ebsp_spmd cfg st env).iterations := by
  have h := poll_loop_fail_writes cfg env.polls
    (_update_remote_timer { st with
      comm_buf := { st.comm_buf with
        nprocs := st.nprocs_used
        syncstate := fill_syncstate st.comm_buf.syncstate st.nprocs cfg.STATE_INIT }
      ts_start := env.clock_start } env.clock_timer env.timer_write_ok).1 0 0
  simp only [LoopResult.control, Prod.mk.injEq] at h
  obtain ⟨g1, g2, g3, g4, g5, g6, g7⟩ := h
  unfold ebsp_spmd SpmdEnv.fail_loop_writes
  simp only [g1, g4, g5, g6]
  split_ifs
  · exact ⟨rfl, rfl, rfl⟩
  · exact ⟨rfl, rfl, rfl⟩
  · exact ⟨rfl, rfl, rfl⟩
  · split <;> exact ⟨rfl, rfl, rfl⟩

/-- The part of the loop that does test its transfer: a failed prefix read ends
`ebsp_spmd` with 0 in its iteration, and 1 is returned only after successful
reads. -/
theorem spmd_read_failure_core (cfg : Config) (st : bsp_state_t) (env : SpmdEnv) :
    (∀ (k : Nat) (e : PollEnv), env.polls[k]? = some e → e.read_ok = false →
      (ebsp_spmd cfg st env).iterations ≤ k + 1 ∧
      ((ebsp_spmd cfg st env).iterations = k + 1 →
        (ebsp_spmd cfg st env).ret = Ret.returned 0)) ∧
    ((ebsp_spmd cfg st env).ret = Ret.returned 1 →
      env.init_write_ok = true ∧ env.start_ok = true ∧ env.final_read.isSome = true ∧
      ∀ (k : Nat) (e : PollEnv), env.polls[k]? = some e →
        k < (ebsp_spmd cfg st env).iterations → e.read_ok = true) := by
  constructor
  · intro k e hk he
    unfold ebsp_spmd
    simp only
    split_ifs with h1 h2 h3
    · simp
    · simp
    · exact poll_loop_read_fail cfg env.polls _ 0 0 k e hk he
    · have := poll_loop_read_fail cfg env.polls
        (_update_remote_timer { st with
          comm_buf := { st.comm_buf with
            nprocs := st.nprocs_used
            syncstate := fill_syncstate st.comm_buf.syncstate st.nprocs cfg.STATE_INIT }
          ts_start := env.clock_start } env.clock_timer env.timer_write_ok).1 0 0 k e hk he
      have hpoll : (poll_loop cfg (_update_remote_timer { st with
          comm_buf := { st.comm_buf with
            nprocs := st.nprocs_used
            syncstate := fill_syncstate st.comm_buf.syncstate st.nprocs cfg.STATE_INIT }
          ts_start := env.clock_start } env.clock_timer env.timer_write_ok).1 0 0
          env.polls).outcome = Ret.polling := by
        by_contra hc
        exact h3 (Or.inl hc)
      split
      · refine ⟨this.1, fun h => ?_⟩
        rfl
      · refine ⟨this.1, fun h => ?_⟩
        have := this.2 h
        rw [hpoll] at this
        exact absurd this (by simp)
  · intro hret
    unfold ebsp_spmd at hret ⊢
    simp only at hret ⊢
    split_ifs at hret ⊢ with h1 h2 h3
    · simp at hret
    · simp at hret
    · rcases h3 with h3 | h3
      · exact absurd hret (poll_loop_not_one cfg env.polls _ 0 0)
      · exact absurd hret (poll_loop_not_one cfg env.polls _ 0 0)
    · have h1' : env.init_write_ok = true := by simpa using h1
      have h2' : env.start_ok = true := by simpa using h2
      have hpoll : (poll_loop cfg (_update_remote_timer { st with
          comm_buf := { st.comm_buf with
            nprocs := st.nprocs_used
            syncstate := fill_syncstate st.comm_buf.syncstate st.nprocs cfg.STATE_INIT }
          ts_start := env.clock_start } env.clock_timer env.timer_write_ok).1 0 0
          env.polls).outcome = Ret.polling := by
        by_contra hc
        exact h3 (Or.inl hc)
      split at hret
      · simp at hret
      · rename_i cb hcb
        rw [hcb]
        exact ⟨h1', h2', rfl, fun k e hk hlt => poll_loop_reads_ok cfg env.polls _ 0 0 hpoll k e hk hlt⟩

/-- Claim C3 (I/O failures end the run with failure) against the code, evaluated
on the run `failing_release_writes_run`.  In iteration 1 the debug-mailbox reset
write, the bulk syncstate write and both per-core `STATE_CONTINUE` writes do not
complete, while every read and every elapsed-time write does.  `ebsp_spmd` does
not return 0 there: it executes a second iteration and returns 1. -/
theorem spmd_ignores_failed_release_writes :
    (ebsp_spmd cfg16 (demo_state 2 2 2 [0, 0]) failing_release_writes_run).ret
      = Ret.returned 1 ∧
    (ebsp_spmd cfg16 (demo_state 2 2 2 [0, 0]) failing_release_writes_run).iterations = 2 ∧
    (ebsp_spmd cfg16 (demo_state 2 2 2 [0, 0]) failing_release_writes_run).events =
      [Event.write_comm_buf { zero_comm_buf cfg16 with syncstate := [0, 0], nprocs := 2 } true,
       Event.write_remotetimer true, Event.start_group true,
       Event.write_remotetimer true, Event.read_head true,
       Event.print_msg 0 (List.replicate 8 0), Event.write_msgflag 0 false,
       Event.sync_callback 1, Event.write_syncstate [4, 4] false,
       Event.write_core_syncstate 0 0 0 4 false, Event.write_core_syncstate 1 0 1 4 false,
       Event.write_remotetimer true, Event.read_head true,
       Event.read_full true, Event.end_callback 2] := by
  refine ⟨by rfl, by rfl, by rfl⟩

/-! ### Addresses and the payload arena -/

theorem wrap_int_of_range (x : Int) (h0 : -2147483648 ≤ x) (h1 : x < 2147483648) :
    wrap_int x = x := by
  unfold wrap_int; omega

theorem to_unsigned_of_nonneg (x : Int) (h0 : 0 ≤ x) (h1 : x < 4294967296) :
    to_unsigned x = x.toNat := by
  unfold to_unsigned; omega

theorem to_unsigned_natCast (n : Nat) (h1 : n < 4294967296) : to_unsigned (n : Int) = n := by
  unfold to_unsigned; omega

theorem to_signed_of_lt (n : Nat) (h : n < 2147483648) : to_signed n = (n : Int) := by
  unfold to_signed
  have : n % 4294967296 = n := Nat.mod_eq_of_lt (by omega)
  rw [this]; simp [h]

/-- Converting the host address of `buf[off]` to an Epiphany address and back
designates `buf[off]` again. -/
theorem arena_offset_roundtrip (cfg : Config) (off : Nat) (h : off < 4294967296) :
    arena_offset cfg (_e_to_arm_pointer cfg
      (_arm_to_e_pointer cfg ((buf_addr cfg + off) % 4294967296))) = off := by
  unfold arena_offset _e_to_arm_pointer _arm_to_e_pointer to_unsigned buf_addr
  omega

theorem take_append_exact {α : Type} (a b c : List α) :
    (a ++ (b ++ c)).take (a.length + b.length) = a ++ b := by
  rw [← List.append_assoc, List.take_append_eq_append_take]
  simp

theorem drop_append_exact {α : Type} (a b c : List α) :
    (a ++ (b ++ c)).drop (a.length + b.length) = c := by
  rw [← List.append_assoc, List.drop_append_eq_append_drop]
  simp

theorem drop_take_middle {α : Type} (a b c : List α) (k : Nat) (hk : k ≤ b.length) :
    ((a ++ (b ++ c)).drop a.length).take k = b.take k := by
  rw [List.drop_left, List.take_append_of_le_length hk]

theorem set_take_succ {α : Type} (l : List α) (i : Nat) (x : α) (h : i < l.length) :
    (l.set i x).take (i + 1) = l.take i ++ [x] := by
  induction l generalizing i with
  | nil => simp at h
  | cons a t ih =>
    cases i with
    | zero => simp
    | succ j =>
      simp only [List.length_cons, Nat.add_lt_add_iff_right] at h
      simp [ih j h]

theorem send_down_reject_state (cfg : Config) (st : bsp_state_t) (pid : Int)
    (tag payload : List Nat) (nbytes : Int) (h : send_down_rejects cfg st.comm_buf nbytes = true) :
    ebsp_send_down cfg st pid tag payload nbytes = some st := by
  unfold ebsp_send_down
  simp [h]

theorem send_down_accept (cfg : Config) (hs : cfg.sizes_ok) (st : bsp_state_t) (pid : Int)
    (tag payload : List Nat) (ts n : Nat)
    (hwf : st.comm_buf.wf cfg) (hts : st.comm_buf.tagsize = (ts : Int))
    (htag : ts ≤ tag.length) (hpay : n ≤ payload.length)
    (hcount : st.comm_buf.count < cfg.MAX_MESSAGES)
    (hfit : st.comm_buf.buffer_size + ts + n ≤ cfg.MAX_PAYLOAD_SIZE) :
    ebsp_send_down cfg st pid tag payload (n : Int) =
      some (accepted_state cfg st pid tag payload ts n) := by
  obtain ⟨hm, hb, hc, hbs⟩ := hwf
  obtain ⟨hs1, hs2⟩ := hs
  have hrej : send_down_rejects cfg st.comm_buf (n : Int) = false := by
    unfold send_down_rejects to_unsigned
    rw [hts]
    simp only [Bool.or_eq_false_iff, decide_eq_false_iff_not]
    constructor <;> omega
  have hu1 : to_unsigned st.comm_buf.tagsize = ts := by rw [hts]; unfold to_unsigned; omega
  have hu2 : to_unsigned (n : Int) = n := by unfold to_unsigned; omega
  have hu3 : to_unsigned (st.comm_buf.tagsize + (n : Int)) = ts + n := by
    rw [hts]; unfold to_unsigned; omega
  have ho1 : arena_offset cfg ((buf_addr cfg + st.comm_buf.buffer_size) % 4294967296)
      = st.comm_buf.buffer_size := by
    unfold arena_offset to_unsigned buf_addr; omega
  have ho2 : arena_offset cfg ((buf_addr cfg + (st.comm_buf.buffer_size + ts) % 4294967296)
      % 4294967296) = st.comm_buf.buffer_size + ts := by
    unfold arena_offset to_unsigned buf_addr; omega
  have hmod : (st.comm_buf.buffer_size + ts) % 4294967296 = st.comm_buf.buffer_size + ts := by
    omega
  have hlen1 : (st.comm_buf.buf.take st.comm_buf.buffer_size).length = st.comm_buf.buffer_size := by
    rw [List.length_take]; omega
  have hlen2 : (tag.take ts).length = ts := by rw [List.length_take]; omega
  have hlen3 : (payload.take n).length = n := by rw [List.length_take]; omega
  unfold ebsp_send_down
  simp only [hrej, Bool.false_eq_true, if_false, hu1, hu2, hu3]
  unfold memcpy_to_buf
  rw [ho1]
  have c1 : ts ≤ tag.length ∧ st.comm_buf.buffer_size + ts ≤ st.comm_buf.buf.length := by
    constructor <;> omega
  simp only [c1, and_self, if_true]
  rw [ho2]
  have c2 : n ≤ payload.length ∧ st.comm_buf.buffer_size + ts + n ≤
      (st.comm_buf.buf.take st.comm_buf.buffer_size ++ tag.take ts ++
        st.comm_buf.buf.drop (st.comm_buf.buffer_size + ts)).length := by
    refine ⟨hpay, ?_⟩
    simp only [List.length_append, hlen1, hlen2, List.length_drop]
    omega
  simp only [c2, and_self, if_true]
  have hcnt : (st.comm_buf.count + 1) % 4294967296 = st.comm_buf.count + 1 := by omega
  have hbsz : (st.comm_buf.buffer_size + (ts + n)) % 4294967296 =
      st.comm_buf.buffer_size + ts + n := by omega
  have e1 : (st.comm_buf.buf.take st.comm_buf.buffer_size ++ tag.take ts ++
      st.comm_buf.buf.drop (st.comm_buf.buffer_size + ts)).take (st.comm_buf.buffer_size + ts)
      = st.comm_buf.buf.take st.comm_buf.buffer_size ++ tag.take ts := by
    have := take_append_exact (st.comm_buf.buf.take st.comm_buf.buffer_size) (tag.take ts)
      (st.comm_buf.buf.drop (st.comm_buf.buffer_size + ts))
    rw [hlen1, hlen2] at this
    rw [List.append_assoc]; exact this
  have e2 : (st.comm_buf.buf.take st.comm_buf.buffer_size ++ tag.take ts ++
      st.comm_buf.buf.drop (st.comm_buf.buffer_size + ts)).drop
        (st.comm_buf.buffer_size + ts + n)
      = st.comm_buf.buf.drop (st.comm_buf.buffer_size + ts + n) := by
    have := drop_append_exact (st.comm_buf.buf.take st.comm_buf.buffer_size) (tag.take ts)
      (st.comm_buf.buf.drop (st.comm_buf.buffer_size + ts))
    rw [hlen1, hlen2] at this
    rw [← List.drop_drop, List.append_assoc, this, List.drop_drop]
  rw [e1, e2, hcnt, hbsz, hmod]
  unfold accepted_state
  simp only [List.append_assoc]

theorem accepted_buf_length (cfg : Config) (st : bsp_state_t) (pid : Int)
    (tag payload : List Nat) (ts n : Nat) (htag : ts ≤ tag.length) (hpay : n ≤ payload.length)
    (hfit : st.comm_buf.buffer_size + ts + n ≤ st.comm_buf.buf.length) :
    (accepted_state cfg st pid tag payload ts n).comm_buf.buf.length = st.comm_buf.buf.length := by
  unfold accepted_state
  simp only [List.length_append, List.length_take, List.length_drop]
  omega

/-- Reading `ts` bytes at the tag address recorded for an accepted message
returns the tag, and reading `k` bytes at its payload address returns the first
`k` bytes of the payload. -/
theorem accepted_read_back (cfg : Config) (st : bsp_state_t) (pid : Int)
    (tag payload : List Nat) (ts n k : Nat) (htag : ts ≤ tag.length) (hpay : n ≤ payload.length)
    (hfit : st.comm_buf.buffer_size + ts + n ≤ st.comm_buf.buf.length)
    (hlt : st.comm_buf.buf.length < 4294967296) (hk : k ≤ n) :
    memcpy_from_buf cfg (accepted_state cfg st pid tag payload ts n).comm_buf.buf
      (_e_to_arm_pointer cfg (_arm_to_e_pointer cfg
        ((buf_addr cfg + st.comm_buf.buffer_size) % 4294967296))) ts = some (tag.take ts) ∧
    memcpy_from_buf cfg (accepted_state cfg st pid tag payload ts n).comm_buf.buf
      (_e_to_arm_pointer cfg (_arm_to_e_pointer cfg
        ((buf_addr cfg + (st.comm_buf.buffer_size + ts)) % 4294967296))) k
      = some (payload.take k) := by
  have hl := accepted_buf_length cfg st pid tag payload ts n htag hpay hfit
  have hlen1 : (st.comm_buf.buf.take st.comm_buf.buffer_size).length = st.comm_buf.buffer_size := by
    rw [List.length_take]; omega
  have hlen2 : (tag.take ts).length = ts := by rw [List.length_take]; omega
  have hlen3 : (payload.take n).length = n := by rw [List.length_take]; omega
  unfold memcpy_from_buf
  rw [arena_offset_roundtrip cfg _ (by omega), arena_offset_roundtrip cfg _ (by omega), hl]
  constructor
  · rw [if_pos (by omega)]
    unfold accepted_state
    simp only
    have := drop_take_middle (st.comm_buf.buf.take st.comm_buf.buffer_size) (tag.take ts)
      (payload.take n ++ st.comm_buf.buf.drop (st.comm_buf.buffer_size + ts + n)) ts
      (by omega)
    rw [hlen1] at this
    rw [this, List.take_take]; simp
  · rw [if_pos (by omega)]
    unfold accepted_state
    simp only
    have h1 := drop_append_exact (st.comm_buf.buf.take st.comm_buf.buffer_size) (tag.take ts)
      (payload.take n ++ st.comm_buf.buf.drop (st.comm_buf.buffer_size + ts + n))
    rw [hlen1, hlen2] at h1
    rw [h1, List.take_append_of_le_length (by omega), List.take_take, min_eq_left hk]

theorem accepted_message_at (cfg : Config) (st : bsp_state_t) (pid : Int)
    (tag payload : List Nat) (ts n : Nat) (h : st.comm_buf.count < st.comm_buf.message.length) :
    message_at (accepted_state cfg st pid tag payload ts n) (st.comm_buf.count : Int) =
      some ⟨pid, _arm_to_e_pointer cfg ((buf_addr cfg + st.comm_buf.buffer_size) % 4294967296),
        _arm_to_e_pointer cfg ((buf_addr cfg + (st.comm_buf.buffer_size + ts)) % 4294967296),
        (n : Int)⟩ := by
  unfold message_at accepted_state
  simp [h]

theorem accepted_next (cfg : Config) (st : bsp_state_t) (pid : Int)
    (tag payload : List Nat) (ts n : Nat) (hc : st.comm_buf.count < 4294967296)
    (hidx : st.message_index = (st.comm_buf.count : Int)) :
    _next_queue_message (accepted_state cfg st pid tag payload ts n)
      = some (st.comm_buf.count : Int) := by
  unfold _next_queue_message accepted_state
  simp only [hidx]
  rw [to_unsigned_natCast _ hc]
  simp

/-! ### Payload round-trip (C4) -/

/-- Claim C4 (payload round-trip).  Take a communication buffer with its
declared layout, no pending message (`message_index` equal to the count),
`count < MAX_MESSAGES` and `tagsize >= 0`; a tag `T` of at least `tagsize`
bytes and a payload `P` of `L >= 0` bytes with
`buffer_size + tagsize + L <= MAX_PAYLOAD_SIZE`; and a capacity `cap >= 0`.
Then `ebsp_send_down(pid, T, P, L)` is defined, after it `ebsp_get_tag` stores
`L` in the status and exactly the first `tagsize` bytes of `T` in the tag
buffer, and `ebsp_move(buf, cap)` stores exactly the first `min(L, cap)` bytes
of `P` and advances the cursor.  All addresses go through
`_arm_to_e_pointer` and `_e_to_arm_pointer` modulo `2 ^ 32`. -/
theorem payload_roundtrip (cfg : Config) (hs : cfg.sizes_ok) (st : bsp_state_t) (pid : Int)
    (T P : List Nat) (L cap : Int)
    (hwf : st.comm_buf.wf cfg)
    (hidx : st.message_index = (st.comm_buf.count : Int))
    (hcount : st.comm_buf.count < cfg.MAX_MESSAGES)
    (hts : 0 ≤ st.comm_buf.tagsize) (hL : 0 ≤ L)
    (hT : st.comm_buf.tagsize ≤ (T.length : Int)) (hP : (P.length : Int) = L)
    (hfit : (st.comm_buf.buffer_size : Int) + st.comm_buf.tagsize + L
      ≤ (cfg.MAX_PAYLOAD_SIZE : Int))
    (hcap : 0 ≤ cap) :
    ∃ st1 st2, ebsp_send_down cfg st pid T P L = some st1 ∧
      ebsp_get_tag cfg st1 = some (L, some (T.take st.comm_buf.tagsize.toNat)) ∧
      ebsp_move cfg st1 cap = some (st2, P.take (min L cap).toNat) ∧
      st2 = _pop_queue_message st1 := by
  obtain ⟨ts, hts'⟩ := Int.eq_ofNat_of_zero_le hts
  obtain ⟨n, hn⟩ := Int.eq_ofNat_of_zero_le hL
  subst hn
  have hwf' := hwf
  obtain ⟨hm, hb, hc, hbs⟩ := hwf
  have hs' := hs
  obtain ⟨hs1, hs2⟩ := hs
  have htag : ts ≤ T.length := by omega
  have hpay : n ≤ P.length := by omega
  have hfit' : st.comm_buf.buffer_size + ts + n ≤ cfg.MAX_PAYLOAD_SIZE := by omega
  have hsend := send_down_accept cfg hs' st pid T P ts n hwf' hts' htag hpay hcount hfit'
  refine ⟨accepted_state cfg st pid T P ts n, _, hsend, ?_, ?_, rfl⟩
  · have hnext := accepted_next cfg st pid T P ts n hc hidx
    have hmsg := accepted_message_at cfg st pid T P ts n (by omega)
    have hrb := (accepted_read_back cfg st pid T P ts n 0 htag hpay (by omega) (by omega)
      (by omega)).1
    have htsz : (accepted_state cfg st pid T P ts n).comm_buf.tagsize = (ts : Int) := hts'
    unfold ebsp_get_tag
    rw [hnext]
    simp only [hmsg, htsz, to_unsigned_natCast ts (by omega), hrb, hts', Int.toNat_ofNat]
  · have hnext := accepted_next cfg st pid T P ts n hc hidx
    have hmsg := accepted_message_at cfg st pid T P ts n (by omega)
    unfold ebsp_move
    rw [hnext]
    simp only
    by_cases hz : cap = 0
    · subst hz
      have : min (n : Int) 0 = 0 := by omega
      simp [this]
    · obtain ⟨c, hc'⟩ := Int.eq_ofNat_of_zero_le hcap
      subst hc'
      have hmin : (if (n : Int) < (c : Int) then (n : Int) else (c : Int)) = ((min n c : Nat) : Int) := by
        split_ifs <;> omega
      have hrb := (accepted_read_back cfg st pid T P ts n (min n c) htag hpay (by omega)
        (by omega) (by omega)).2
      simp only [hz, if_false, hmsg, hmin, to_unsigned_natCast (min n c) (by omega), hrb]
      have : (min (n : Int) (c : Int)).toNat = min n c := by omega
      rw [this]

/-- Instance of `payload_roundtrip`: a 2-byte tag, a 3-byte payload, capacity 2. -/
theorem payload_roundtrip_witness :
    ∃ st1 st2, ebsp_send_down cfg16 (ebsp_set_tagsize (demo_state 2 2 2 [0, 0]) 2).1 1
        [10, 11] [1, 2, 3] 3 = some st1 ∧
      ebsp_get_tag cfg16 st1 = some (3, some [10, 11]) ∧
      ebsp_move cfg16 st1 2 = some (st2, [1, 2]) ∧ st2 = _pop_queue_message st1 :=
  payload_roundtrip cfg16 (by decide) (ebsp_set_tagsize (demo_state 2 2 2 [0, 0]) 2).1 1
    [10, 11] [1, 2, 3] 3 2 (by decide) (by decide) (by decide) (by decide) (by decide)
    (by decide) (by decide) (by decide) (by decide)

/-! ### Consumption count (C5) -/

theorem next_none_of_le (st : bsp_state_t) (h1 : (st.comm_buf.count : Int) ≤ st.message_index)
    (h2 : st.message_index < 2147483648) : _next_queue_message st = none := by
  unfold _next_queue_message to_unsigned
  rw [if_neg (by omega)]

theorem next_some_of_lt (st : bsp_state_t) (h0 : 0 ≤ st.message_index)
    (h1 : st.message_index < (st.comm_buf.count : Int))
    (h2 : st.message_index < 2147483648) :
    _next_queue_message st = some st.message_index := by
  unfold _next_queue_message to_unsigned
  rw [if_pos (by omega)]

theorem message_at_pending (cfg : Config) (st : bsp_state_t) (i : Int)
    (hq : queue_ok cfg st.comm_buf) (h0 : 0 ≤ i) (h1 : i < (st.comm_buf.count : Int)) :
    ∃ h, message_at st i = some h ∧ 0 ≤ h.nbytes ∧
      arena_offset cfg (_e_to_arm_pointer cfg h.payload) + h.nbytes.toNat
        ≤ st.comm_buf.buf.length := by
  obtain ⟨q1, q2, q3, q4⟩ := hq
  have hlt : i.toNat < st.comm_buf.message.length := by omega
  refine ⟨st.comm_buf.message[i.toNat], ?_, ?_⟩
  · unfold message_at
    rw [if_pos h0, List.getElem?_eq_getElem hlt]
  · apply q4
    rw [List.mem_iff_getElem?]
    refine ⟨i.toNat, ?_⟩
    rw [List.getElem?_take, if_pos (by omega), List.getElem?_eq_getElem hlt]

theorem consume_defined (cfg : Config) (st : bsp_state_t) (c : Consume)
    (hq : queue_ok cfg st.comm_buf) (h0 : 0 ≤ st.message_index)
    (h2 : st.message_index < 2147483648) (hc : c.ok) :
    consume cfg st c = some (_pop_queue_message st) := by
  have hq' := hq
  obtain ⟨q1, q2, q3, q4⟩ := hq
  by_cases hlt : st.message_index < (st.comm_buf.count : Int)
  · have hn := next_some_of_lt st h0 hlt h2
    obtain ⟨h, hm, hnb, hfit⟩ := message_at_pending cfg st st.message_index hq' h0 hlt
    cases c with
    | move cap =>
      unfold consume ebsp_move
      simp only [hn, hm]
      by_cases hz : cap = 0
      · simp [hz]
      · have hcap : 0 ≤ cap := hc
        have hu : to_unsigned (if h.nbytes < cap then h.nbytes else cap)
            = (if h.nbytes < cap then h.nbytes else cap).toNat := by
          apply to_unsigned_of_nonneg <;> split_ifs <;> omega
        have hle : (if h.nbytes < cap then h.nbytes else cap).toNat ≤ h.nbytes.toNat := by
          split_ifs <;> omega
        simp only [hz, if_false, hu]
        unfold memcpy_from_buf
        rw [if_pos (by omega)]
        rfl
    | hpmove =>
      unfold consume ebsp_hpmove
      simp only [hn, hm]
      rfl
  · have hn := next_none_of_le st (by omega) h2
    cases c with
    | move cap => unfold consume ebsp_move; simp only [hn]; rfl
    | hpmove => unfold consume ebsp_hpmove; simp only [hn]; rfl

theorem consume_all_defined (cfg : Config) (calls : List Consume) :
    ∀ st : bsp_state_t, queue_ok cfg st.comm_buf → 0 ≤ st.message_index →
      st.message_index + (calls.length : Int) < 2147483648 → (∀ c ∈ calls, c.ok) →
      consume_all cfg st calls =
        some { st with message_index := st.message_index + (calls.length : Int) } := by
  induction calls with
  | nil => intro st _ _ _ _; simp [consume_all]
  | cons c rest ih =>
    intro st hq h0 h2 hok
    simp only [List.length_cons, Nat.cast_add, Nat.cast_one] at h2
    unfold consume_all
    rw [consume_defined cfg st c hq h0 (by omega) (hok c (List.mem_cons_self _ _))]
    simp only
    have hw : wrap_int (st.message_index + 1) = st.message_index + 1 :=
      wrap_int_of_range _ (by omega) (by omega)
    rw [ih (_pop_queue_message st) hq (by simp only [_pop_queue_message, hw]; omega)
      (by simp only [_pop_queue_message, hw]; omega)
      (fun d hd => hok d (List.mem_cons_of_mem _ hd))]
    simp only [_pop_queue_message, hw, List.length_cons, Nat.cast_add, Nat.cast_one]
    congr 2
    ring

theorem qsize_loop_packets (st : bsp_state_t) (steps : Nat) :
    ∀ (mindex packets accum : Int), 0 ≤ mindex →
      mindex + (steps : Int) ≤ (st.comm_buf.message.length : Int) →
      ∃ bytes, qsize_loop st steps mindex packets accum = some (packets + (steps : Int), bytes) := by
  induction steps with
  | zero => intro mindex packets accum _ _; exact ⟨accum, by simp [qsize_loop]⟩
  | succ k ih =>
    intro mindex packets accum h0 h1
    have hlt : mindex.toNat < st.comm_buf.message.length := by omega
    have hm : message_at st mindex = some st.comm_buf.message[mindex.toNat] := by
      unfold message_at
      rw [if_pos h0, List.getElem?_eq_getElem hlt]
    obtain ⟨b, hb⟩ := ih (mindex + 1) (packets + 1)
      (wrap_int (accum + st.comm_buf.message[mindex.toNat].nbytes)) (by omega)
      (by push_cast at h1; omega)
    refine ⟨b, ?_⟩
    unfold qsize_loop
    simp only [hm]
    rw [hb]
    push_cast
    congr 2
    ring

theorem no_message_reports (cfg : Config) (st : bsp_state_t)
    (h1 : (st.comm_buf.count : Int) ≤ st.message_index) (h2 : st.message_index < 2147483648) :
    ebsp_get_tag cfg st = some (-1, none) ∧
    ebsp_hpmove cfg st = some (_pop_queue_message st, -1, none) ∧
    ∀ cap, ebsp_move cfg st cap = some (_pop_queue_message st, []) := by
  have hn := next_none_of_le st h1 h2
  refine ⟨?_, ?_, ?_⟩
  · unfold ebsp_get_tag; simp only [hn]
  · unfold ebsp_hpmove; simp only [hn]
  · intro cap; unfold ebsp_move; simp only [hn]

/-- Claim C5 fails as stated: on a queue of 1 message with the cursor at 0,
after 2 consuming calls `ebsp_qsize` reports 0 pending packets, not
`1 - 2 = -1`. -/
theorem qsize_after_overshoot :
    one_message_state.message_index = 0 ∧ one_message_state.comm_buf.count = 1 ∧
    ebsp_qsize one_message_state = some (1, 2) ∧
    (consume_all cfg16 one_message_state [Consume.move 8, Consume.hpmove]).bind ebsp_qsize
      = some (0, 0) ∧
    ((1 : Int) - 2 ≠ 0) := by
  refine ⟨by decide, by decide, by decide, by decide, by decide⟩

/-- Claim C5, amended.  On a queue holding `count` messages with the cursor at
0, every sequence of `k < 2 ^ 31` consuming calls (`ebsp_move` with a capacity
that is not negative, or `ebsp_hpmove`) is defined and leaves the cursor at
`k`; `ebsp_qsize` then reports `max(count - k, 0)` pending packets, which is
`count - k` as long as `k <= count`.  In every state whose cursor is at or past
the count, `ebsp_get_tag` stores status -1, `ebsp_hpmove` returns -1 and
`ebsp_move` copies nothing; each of the two consuming calls advances the
cursor. -/
theorem consumption_count (cfg : Config) (st : bsp_state_t) (calls : List Consume)
    (hq : queue_ok cfg st.comm_buf) (h0 : st.message_index = 0)
    (hk : calls.length < 2147483648) (hok : ∀ c ∈ calls, c.ok) :
    (∃ st1 bytes, consume_all cfg st calls = some st1 ∧
      st1.message_index = (calls.length : Int) ∧
      ebsp_qsize st1 = some (max ((st.comm_buf.count : Int) - (calls.length : Int)) 0, bytes) ∧
      (calls.length ≤ st.comm_buf.count →
        ebsp_qsize st1 = some ((st.comm_buf.count : Int) - (calls.length : Int), bytes))) ∧
    (∀ st2 : bsp_state_t, (st2.comm_buf.count : Int) ≤ st2.message_index →
      st2.message_index < 2147483648 →
      ebsp_get_tag cfg st2 = some (-1, none) ∧
      ebsp_hpmove cfg st2 = some (_pop_queue_message st2, -1, none) ∧
      ∀ cap, ebsp_move cfg st2 cap = some (_pop_queue_message st2, [])) := by
  refine ⟨?_, fun st2 h1 h2 => no_message_reports cfg st2 h1 h2⟩
  have hall := consume_all_defined cfg calls st hq (by omega) (by omega) hok
  obtain ⟨q1, q2, q3, q4⟩ := hq
  have hsig : to_signed st.comm_buf.count = (st.comm_buf.count : Int) :=
    to_signed_of_lt _ q2
  have hqs : ∃ bytes,
      ebsp_qsize { st with message_index := st.message_index + (calls.length : Int) }
      = some (max ((st.comm_buf.count : Int) - (calls.length : Int)) 0, bytes) := by
    unfold ebsp_qsize
    simp only [hsig, h0, zero_add]
    by_cases hle : (calls.length : Int) ≤ (st.comm_buf.count : Int)
    · obtain ⟨bytes, hb⟩ := qsize_loop_packets
        { st with message_index := (calls.length : Int) }
        ((st.comm_buf.count : Int) - (calls.length : Int)).toNat (calls.length : Int) 0 0
        (by omega) (by simp only; omega)
      refine ⟨bytes, ?_⟩
      rw [hb]
      congr 2
      omega
    · have hz : ((st.comm_buf.count : Int) - (calls.length : Int)).toNat = 0 := by omega
      refine ⟨0, ?_⟩
      rw [hz]
      unfold qsize_loop
      congr 2
      omega
  obtain ⟨bytes, hqs⟩ := hqs
  refine ⟨_, bytes, hall, by simp [h0], hqs, fun hle => ?_⟩
  rw [hqs]
  congr 2
  omega

/-- Instance of `consumption_count`: two consuming calls on a queue of one message. -/
theorem consumption_count_witness :
    ∃ st1 bytes, consume_all cfg16 one_message_state [Consume.move 1, Consume.hpmove] = some st1 ∧
      st1.message_index = 2 ∧ ebsp_qsize st1 = some (0, bytes) :=
  have h := (consumption_count cfg16 one_message_state [Consume.move 1, Consume.hpmove]
    (by decide) (by decide) (by decide) (by decide)).1
  match h with
  | ⟨st1, bytes, h1, h2, h3, _⟩ => ⟨st1, bytes, h1, h2, h3⟩

/-! ### Enqueue rejection (C6) -/

/-- Claim C6 fails as stated: with `buffer_size = 2`, `tagsize = INT_MAX >= 0` and
`nbytes = INT_MAX >= 0` the sum `buffer_size + tagsize + nbytes` exceeds
`MAX_PAYLOAD_SIZE`, but computed on `unsigned int` it wraps around to 0, so
neither early return of `ebsp_send_down` is taken and the message is not
rejected.  The same happens without any `int` overflow when the cursor holds
`4294967295`, `tagsize = 0` and `nbytes = 1`. -/
theorem send_down_accepts_on_wraparound :
    wrap_state.comm_buf.wf cfg16 ∧ 0 ≤ wrap_state.comm_buf.tagsize ∧
    ((wrap_state.comm_buf.buffer_size : Int) + wrap_state.comm_buf.tagsize + 2147483647
      > (cfg16.MAX_PAYLOAD_SIZE : Int)) ∧
    send_down_rejects cfg16 wrap_state.comm_buf 2147483647 = false ∧
    ebsp_send_down cfg16 wrap_state 0 [] [] 2147483647 ≠ some wrap_state ∧
    wrap_state_cursor.comm_buf.wf cfg16 ∧ 0 ≤ wrap_state_cursor.comm_buf.tagsize ∧
    ((wrap_state_cursor.comm_buf.buffer_size : Int) + wrap_state_cursor.comm_buf.tagsize + 1
      > (cfg16.MAX_PAYLOAD_SIZE : Int)) ∧
    send_down_rejects cfg16 wrap_state_cursor.comm_buf 1 = false ∧
    ebsp_send_down cfg16 wrap_state_cursor 0 [] [9] 1 ≠ some wrap_state_cursor := by
  refine ⟨by decide, by decide, by decide, by decide, by decide, by decide, by decide,
    by decide, by decide, by decide⟩

/-- Claim C6, amended.  Take a communication buffer with its declared layout
and `tagsize >= 0`, a payload length `nbytes >= 0`, a tag buffer of at least
`tagsize` bytes and a payload buffer of at least `nbytes` bytes, and assume
`buffer_size + tagsize + nbytes < 2 ^ 32` (the unsigned sum does not wrap).
Then `ebsp_send_down` returns with the whole state unchanged if and only if the
count has reached `MAX_MESSAGES` or `buffer_size + tagsize + nbytes` exceeds
`MAX_PAYLOAD_SIZE`; otherwise the count grows by exactly 1 and `buffer_size` by
exactly `tagsize + nbytes`. -/
theorem send_down_rejection_exact (cfg : Config) (hs : cfg.sizes_ok) (st : bsp_state_t)
    (pid : Int) (tag payload : List Nat) (nbytes : Int)
    (hwf : st.comm_buf.wf cfg)
    (hts : 0 ≤ st.comm_buf.tagsize) (hn : 0 ≤ nbytes)
    (htag : st.comm_buf.tagsize ≤ (tag.length : Int))
    (hpay : nbytes ≤ (payload.length : Int))
    (hno : (st.comm_buf.buffer_size : Int) + st.comm_buf.tagsize + nbytes < 4294967296) :
    (ebsp_send_down cfg st pid tag payload nbytes = some st ↔
      (cfg.MAX_MESSAGES ≤ st.comm_buf.count ∨
       (cfg.MAX_PAYLOAD_SIZE : Int) <
         (st.comm_buf.buffer_size : Int) + st.comm_buf.tagsize + nbytes)) ∧
    (¬ (cfg.MAX_MESSAGES ≤ st.comm_buf.count ∨
       (cfg.MAX_PAYLOAD_SIZE : Int) <
         (st.comm_buf.buffer_size : Int) + st.comm_buf.tagsize + nbytes) →
      ∃ st1, ebsp_send_down cfg st pid tag payload nbytes = some st1 ∧
        st1.comm_buf.count = st.comm_buf.count + 1 ∧
        (st1.comm_buf.buffer_size : Int) =
          (st.comm_buf.buffer_size : Int) + st.comm_buf.tagsize + nbytes) := by
  obtain ⟨ts, hts'⟩ := Int.eq_ofNat_of_zero_le hts
  obtain ⟨n, hn'⟩ := Int.eq_ofNat_of_zero_le hn
  subst hn'
  have hrej : send_down_rejects cfg st.comm_buf (n : Int) = true ↔
      (cfg.MAX_MESSAGES ≤ st.comm_buf.count ∨
       (cfg.MAX_PAYLOAD_SIZE : Int) <
         (st.comm_buf.buffer_size : Int) + st.comm_buf.tagsize + (n : Int)) := by
    unfold send_down_rejects to_unsigned
    rw [hts'] at hno ⊢
    simp only [Bool.or_eq_true, decide_eq_true_eq, ge_iff_le, gt_iff_lt]
    constructor
    · rintro (h | h)
      · exact Or.inl h
      · right; omega
    · rintro (h | h)
      · exact Or.inl h
      · right; omega
  have hacc : ¬ (cfg.MAX_MESSAGES ≤ st.comm_buf.count ∨
       (cfg.MAX_PAYLOAD_SIZE : Int) <
         (st.comm_buf.buffer_size : Int) + st.comm_buf.tagsize + (n : Int)) →
      ebsp_send_down cfg st pid tag payload (n : Int) =
        some (accepted_state cfg st pid tag payload ts n) := by
    intro hc
    rw [hts'] at hc
    exact send_down_accept cfg hs st pid tag payload ts n hwf hts' (by omega) (by omega)
      (by omega) (by omega)
  constructor
  · constructor
    · intro h
      by_contra hc
      rw [hacc hc] at h
      have := congrArg (fun s => s.comm_buf.count) (Option.some.inj h)
      simp [accepted_state] at this
    · intro h
      exact send_down_reject_state cfg st pid tag payload _ (hrej.mpr h)
  · intro hc
    refine ⟨_, hacc hc, rfl, ?_⟩
    simp only [accepted_state, hts']
    push_cast
    ring

/-- Instance of `send_down_rejection_exact`: an accepted 3-byte message. -/
theorem send_down_rejection_exact_witness :
    ∃ st1, ebsp_send_down cfg16 (demo_state 2 2 2 [0, 0]) 1 [] [1, 2, 3] 3 = some st1 ∧
      st1.comm_buf.count = 1 ∧ (st1.comm_buf.buffer_size : Int) = 3 :=
  (send_down_rejection_exact cfg16 (by decide) (demo_state 2 2 2 [0, 0]) 1 [] [1, 2, 3] 3
    (by decide) (by decide) (by decide) (by decide) (by decide) (by decide)).2 (by decide)

/-! ### Arena regions (C7) -/

theorem arena_inv_zero (cfg : Config) (st : bsp_state_t)
    (hz : st.comm_buf = zero_comm_buf cfg) : arena_inv cfg st := by
  unfold arena_inv ebsp_comm_buf.wf
  rw [hz]
  simp [zero_comm_buf]

/-- What a queue call does to a state that satisfies the invariant. -/
theorem queue_step_inv (cfg : Config) (hs : cfg.sizes_ok) (st : bsp_state_t) (op : QueueOp)
    (hinv : arena_inv cfg st) (hok : op.ok st.comm_buf.tagsize) :
    ∃ st1, queue_step cfg st op = some st1 ∧ arena_inv cfg st1 ∧
      st1.comm_buf.tagsize = op.tagsize_after st.comm_buf.tagsize ∧
      st.comm_buf.count ≤ st1.comm_buf.count ∧
      (∀ i, i < st.comm_buf.count → st1.comm_buf.message[i]? = st.comm_buf.message[i]?) ∧
      st1.comm_buf.buf.take st.comm_buf.buffer_size
        = st.comm_buf.buf.take st.comm_buf.buffer_size ∧
      (st1.comm_buf.count ≠ st.comm_buf.count →
        ∃ pid tag payload nbytes, op = QueueOp.send pid tag payload nbytes ∧
          st1.comm_buf.count = st.comm_buf.count + 1 ∧
          ∃ h, st1.comm_buf.message[st.comm_buf.count]? = some h ∧
            h.pid = pid ∧ h.nbytes = nbytes ∧
            tag_offset cfg h = st.comm_buf.buffer_size ∧
            payload_offset cfg h = st.comm_buf.buffer_size + st.comm_buf.tagsize.toNat ∧
            region_end cfg h = st1.comm_buf.buffer_size ∧
            st1.comm_buf.buffer_size =
              st.comm_buf.buffer_size + st.comm_buf.tagsize.toNat + nbytes.toNat ∧
            st1.comm_buf.buffer_size ≤ cfg.MAX_PAYLOAD_SIZE ∧
            st1.comm_buf.buf.drop st.comm_buf.buffer_size =
              tag.take st.comm_buf.tagsize.toNat ++ (payload.take nbytes.toNat ++
                st.comm_buf.buf.drop st1.comm_buf.buffer_size)) := by
  obtain ⟨hwf, hcnt, hbs, hts, hreg⟩ := hinv
  have hwf' := hwf
  obtain ⟨hm, hb, hc, hbs32⟩ := hwf
  have hs' := hs
  obtain ⟨hs1, hs2⟩ := hs
  cases op with
  | set_tagsize n =>
    refine ⟨(ebsp_set_tagsize st n).1, rfl, ?_, rfl, le_refl _, fun i _ => rfl, rfl, ?_⟩
    · exact ⟨⟨hm, hb, hc, hbs32⟩, hcnt, hbs, hok, hreg⟩
    · intro h; exact absurd rfl h
  | send pid tag payload nbytes =>
    obtain ⟨hn, hpay, htag, hsum⟩ := hok
    obtain ⟨ts, hts'⟩ := Int.eq_ofNat_of_zero_le hts
    obtain ⟨n, hn'⟩ := Int.eq_ofNat_of_zero_le hn
    subst hn'
    by_cases hrej : send_down_rejects cfg st.comm_buf (n : Int) = true
    · refine ⟨st, send_down_reject_state cfg st pid tag payload _ hrej, ?_, rfl, le_refl _,
        fun i _ => rfl, rfl, fun h => absurd rfl h⟩
      exact ⟨hwf', hcnt, hbs, hts, hreg⟩
    · have hrej' : send_down_rejects cfg st.comm_buf (n : Int) = false := by
        simpa using hrej
      unfold send_down_rejects to_unsigned at hrej'
      rw [hts'] at hrej' hsum htag
      simp only [Bool.or_eq_false_iff, decide_eq_false_iff_not, ge_iff_le, gt_iff_lt,
        not_le, not_lt] at hrej'
      obtain ⟨r1, r2⟩ := hrej'
      have hfit : st.comm_buf.buffer_size + ts + n ≤ cfg.MAX_PAYLOAD_SIZE := by omega
      have hacc := send_down_accept cfg hs' st pid tag payload ts n hwf' hts' (by omega)
        (by omega) r1 hfit
      have htn : st.comm_buf.tagsize.toNat = ts := by rw [hts']; simp
      have ho1 : arena_offset cfg (_e_to_arm_pointer cfg (_arm_to_e_pointer cfg
          ((buf_addr cfg + st.comm_buf.buffer_size) % 4294967296))) = st.comm_buf.buffer_size :=
        arena_offset_roundtrip cfg _ (by omega)
      have ho2 : arena_offset cfg (_e_to_arm_pointer cfg (_arm_to_e_pointer cfg
          ((buf_addr cfg + (st.comm_buf.buffer_size + ts)) % 4294967296)))
          = st.comm_buf.buffer_size + ts :=
        arena_offset_roundtrip cfg _ (by omega)
      have hlen1 : (st.comm_buf.buf.take st.comm_buf.buffer_size).length
          = st.comm_buf.buffer_size := by
        rw [List.length_take]; omega
      refine ⟨accepted_state cfg st pid tag payload ts n, hacc, ?_, rfl, ?_, ?_, ?_, ?_⟩
      · refine ⟨⟨?_, ?_, ?_, ?_⟩, ?_, ?_, ?_, ?_⟩
        · simp [accepted_state, hm]
        · rw [accepted_buf_length cfg st pid tag payload ts n (by omega) (by omega) (by omega)]
          exact hb
        · simp only [accepted_state]; omega
        · simp only [accepted_state]; omega
        · simp only [accepted_state]; omega
        · simp only [accepted_state]; omega
        · exact hts
        · intro h hh
          simp only [accepted_state] at hh ⊢
          rw [set_take_succ _ _ _ (by omega), List.mem_append, List.mem_singleton] at hh
          rcases hh with hh | hh
          · obtain ⟨a1, a2, a3⟩ := hreg h hh
            exact ⟨a1, a2, by omega⟩
          · subst hh
            unfold region_end tag_offset payload_offset
            simp only [ho1, ho2, Int.toNat_ofNat]
            omega
      · simp [accepted_state]
      · intro i hi
        simp only [accepted_state]
        rw [List.getElem?_set_ne (by omega)]
      · simp only [accepted_state]
        rw [List.take_append_of_le_length (by omega), List.take_take, min_self]
      · intro _
        refine ⟨pid, tag, payload, (n : Int), rfl, rfl,
          ⟨pid, _arm_to_e_pointer cfg ((buf_addr cfg + st.comm_buf.buffer_size) % 4294967296),
            _arm_to_e_pointer cfg ((buf_addr cfg + (st.comm_buf.buffer_size + ts)) % 4294967296),
            (n : Int)⟩,
          ?_, rfl, rfl, ?_, ?_, ?_, ?_, ?_, ?_⟩
        · simp only [accepted_state]
          rw [List.getElem?_set_self (by omega)]
        · unfold tag_offset; exact ho1
        · unfold payload_offset; simp only [ho2, htn]
        · unfold region_end payload_offset
          simp only [ho2, Int.toNat_ofNat, accepted_state]
        · simp only [accepted_state, htn, Int.toNat_ofNat]
        · simp only [accepted_state]; omega
        · simp only [accepted_state, htn, Int.toNat_ofNat]
          have := List.drop_left (st.comm_buf.buf.take st.comm_buf.buffer_size)
            (tag.take ts ++ (payload.take n ++
              st.comm_buf.buf.drop (st.comm_buf.buffer_size + ts + n)))
          rw [hlen1] at this
          exact this

theorem queue_run_inv (cfg : Config) (hs : cfg.sizes_ok) (pre rest : List QueueOp) :
    ∀ st : bsp_state_t, arena_inv cfg st → args_are_sizes st.comm_buf.tagsize (pre ++ rest) →
      ∃ s1, queue_run cfg st pre = some s1 ∧ arena_inv cfg s1 ∧
        args_are_sizes s1.comm_buf.tagsize rest := by
  induction pre with
  | nil => intro st hinv hok; exact ⟨st, rfl, hinv, hok⟩
  | cons op t ih =>
    intro st hinv hok
    simp only [List.cons_append] at hok
    unfold args_are_sizes at hok
    obtain ⟨hop, hrest⟩ := hok
    obtain ⟨st1, hstep, hinv1, htag, -⟩ := queue_step_inv cfg hs st op hinv hop
    rw [← htag] at hrest
    obtain ⟨s1, hrun, hinv2, hok2⟩ := ih st1 hinv1 hrest
    refine ⟨s1, ?_, hinv2, hok2⟩
    unfold queue_run
    rw [hstep]
    exact hrun

/-- Claim C7 fails as stated for a negative payload length.  After one
accepted message of 8 bytes (count 1, cursor 8) the call
`ebsp_send_down(0, tag, payload, -4)` passes both tests: `total_nbytes` is
`(unsigned)-4` and `8 + total_nbytes` wraps to 4, so the cursor would move back
into the region `[0, 8)` of the first message, and `memcpy` is asked for
`4294967292` bytes, which is undefined. -/
theorem negative_length_moves_cursor_back :
    (queue_run cfg16 (bsp_begin cfg16 rt_4x4 16 begin_ok).2.state
        [QueueOp.send 0 [] [1, 2, 3, 4, 5, 6, 7, 8] 8]).map
      (fun s => (s.comm_buf.count, s.comm_buf.buffer_size,
        send_down_rejects cfg16 s.comm_buf (-4),
        (s.comm_buf.buffer_size + to_unsigned (s.comm_buf.tagsize + (-4))) % 4294967296,
        to_unsigned (-4)))
      = some (1, 8, false, 4, 4294967292) ∧
    queue_run cfg16 (bsp_begin cfg16 rt_4x4 16 begin_ok).2.state
        [QueueOp.send 0 [] [1, 2, 3, 4, 5, 6, 7, 8] 8, QueueOp.send 0 [] [] (-4)] = none := by
  refine ⟨by decide, by decide⟩

/-- Claim C7, amended.  Start from the zeroed communication buffer (tag size 0)
and make any sequence of `ebsp_send_down` and `ebsp_set_tagsize` calls whose
arguments are sizes (tag sizes and payload lengths not negative,
`tagsize + nbytes` an `int`, the caller buffers holding the bytes).  Every call
is defined: no `memcpy` leaves the arena.  A call never lowers the count, never
modifies a header below the count and never modifies an arena byte below the
cursor.  When a message is accepted, its header records a tag region of
`tagsize` bytes at the cursor, immediately followed by a payload region of
`nbytes` bytes; the region ends inside the arena (`<= MAX_PAYLOAD_SIZE`), it
holds the tag and payload bytes, and the region of every earlier message ends
at or before its start. -/
theorem arena_regions_disjoint (cfg : Config) (hs : cfg.sizes_ok) (st0 : bsp_state_t)
    (pre : List QueueOp) (op : QueueOp)
    (hzero : st0.comm_buf = zero_comm_buf cfg) (hok : args_are_sizes 0 (pre ++ [op])) :
    ∃ s1 s2, queue_run cfg st0 pre = some s1 ∧ queue_step cfg s1 op = some s2 ∧
      s1.comm_buf.count ≤ s2.comm_buf.count ∧
      (∀ i, i < s1.comm_buf.count → s2.comm_buf.message[i]? = s1.comm_buf.message[i]?) ∧
      s2.comm_buf.buf.take s1.comm_buf.buffer_size
        = s1.comm_buf.buf.take s1.comm_buf.buffer_size ∧
      (s2.comm_buf.count ≠ s1.comm_buf.count →
        ∃ pid tag payload nbytes h, op = QueueOp.send pid tag payload nbytes ∧
          s2.comm_buf.count = s1.comm_buf.count + 1 ∧
          s2.comm_buf.message[s1.comm_buf.count]? = some h ∧
          h.pid = pid ∧ h.nbytes = nbytes ∧ 0 ≤ s1.comm_buf.tagsize ∧ 0 ≤ nbytes ∧
          payload_offset cfg h = tag_offset cfg h + s1.comm_buf.tagsize.toNat ∧
          region_end cfg h = payload_offset cfg h + nbytes.toNat ∧
          region_end cfg h ≤ cfg.MAX_PAYLOAD_SIZE ∧
          s2.comm_buf.buf.drop (tag_offset cfg h) =
            tag.take s1.comm_buf.tagsize.toNat ++ (payload.take nbytes.toNat ++
              s1.comm_buf.buf.drop (region_end cfg h)) ∧
          ∀ e ∈ s1.comm_buf.message.take s1.comm_buf.count,
            tag_offset cfg e ≤ payload_offset cfg e ∧ payload_offset cfg e ≤ region_end cfg e ∧
            region_end cfg e ≤ tag_offset cfg h) := by
  have hts0 : st0.comm_buf.tagsize = 0 := by rw [hzero]; rfl
  obtain ⟨s1, hrun, hinv, hok1⟩ := queue_run_inv cfg hs pre [op] st0
    (arena_inv_zero cfg st0 hzero) (by rw [hts0]; exact hok)
  unfold args_are_sizes at hok1
  obtain ⟨hop, -⟩ := hok1
  obtain ⟨s2, hstep, -, -, hcnt, hmsg, hbuf, hnew⟩ := queue_step_inv cfg hs s1 op hinv hop
  refine ⟨s1, s2, hrun, hstep, hcnt, hmsg, hbuf, fun hne => ?_⟩
  obtain ⟨pid, tag, payload, nbytes, e1, e2, h, e3, e4, e5, e6, e7, e8, e9, e10, e11⟩ := hnew hne
  obtain ⟨-, -, -, hts, hreg⟩ := hinv
  have hnb : 0 ≤ nbytes := by
    rw [e1] at hop
    exact hop.1
  refine ⟨pid, tag, payload, nbytes, h, e1, e2, e3, e4, e5, hts, hnb, ?_, ?_, ?_, ?_, ?_⟩
  · rw [e7, e6]
  · unfold region_end; rw [e5]
  · rw [e8]; exact e10
  · rw [e6, e8]; exact e11
  · intro e he
    obtain ⟨a1, a2, a3⟩ := hreg e he
    refine ⟨a1, ?_, ?_⟩
    · unfold region_end; omega
    · rw [e6]; exact a3

/-- Instance of `arena_regions_disjoint`: two messages with tag size 2, the
second one accepted at count 1 with its region `[5, 8)` after the region
`[0, 5)` of the first. -/
theorem arena_regions_disjoint_witness :
    args_are_sizes 0 ([QueueOp.set_tagsize 2, QueueOp.send 1 [10, 11] [1, 2, 3] 3]
      ++ [QueueOp.send 0 [5, 6] [9] 1]) ∧
    ∃ s1 s2, queue_run cfg16 (bsp_begin cfg16 rt_4x4 16 begin_ok).2.state
        [QueueOp.set_tagsize 2, QueueOp.send 1 [10, 11] [1, 2, 3] 3] = some s1 ∧
      queue_step cfg16 s1 (QueueOp.send 0 [5, 6] [9] 1) = some s2 ∧
      s1.comm_buf.count ≤ s2.comm_buf.count :=
  have h := arena_regions_disjoint cfg16 (by decide) (bsp_begin cfg16 rt_4x4 16 begin_ok).2.state
    [QueueOp.set_tagsize 2, QueueOp.send 1 [10, 11] [1, 2, 3] 3] (QueueOp.send 0 [5, 6] [9] 1)
    (by decide) (by decide)
  match h with
  | ⟨s1, s2, h1, h2, h3, _⟩ => ⟨by decide, s1, s2, h1, h2, h3⟩

/-! ### Work-group tiling (C8) -/

/-- Claim C8 fails as stated on a platform of 4 rows.  For 9 requested cores
`bsp_begin` succeeds with `rows = 2` and `cols = 4`, and `2 * 4 < 9`.  For 3
requested cores `rows = 3 / 4 = 0`, and the division by `rows` is a division by
zero. -/
theorem bsp_begin_tiling_fails :
    ((bsp_begin cfg16 rt_4x4 9 begin_ok).1 = Ret.returned 1 ∧
      (bsp_begin cfg16 rt_4x4 9 begin_ok).2.state.rows = 2 ∧
      (bsp_begin cfg16 rt_4x4 9 begin_ok).2.state.cols = 4 ∧
      ¬ ((bsp_begin cfg16 rt_4x4 9 begin_ok).2.state.rows *
          (bsp_begin cfg16 rt_4x4 9 begin_ok).2.state.cols ≥ 9)) ∧
    ((bsp_begin cfg16 rt_4x4 3 begin_ok).1 = Ret.undefined ∧
      (bsp_begin cfg16 rt_4x4 3 begin_ok).2.state.rows = 0) := by
  decide

/-- Claim C8, amended.  On a platform with `rows >= 1`, for every request
`n` with `1 <= n <= _NPROCS`, `platform.rows <= n` and `n / platform.rows`
dividing `n` (every multiple of `platform.rows` is such an `n`), with all
hardware calls succeeding, `bsp_begin` succeeds; it computes
`rows = n / platform.rows`, which is not zero, and `cols = n / rows`, and
`rows * cols = n`, so `rows * cols >= n`. -/
theorem bsp_begin_tiling (cfg : Config) (rt : Runtime) (n : Int) (env : BeginEnv)
    (hrows : 1 ≤ rt.state.platform.rows) (h1 : 1 ≤ n) (h2 : n ≤ (cfg._NPROCS : Int))
    (hok : env.all_ok) (hge : rt.state.platform.rows ≤ n)
    (hdiv : Int.tdiv n rt.state.platform.rows ∣ n) :
    (bsp_begin cfg rt n env).1 = Ret.returned 1 ∧
    (bsp_begin cfg rt n env).2.state.rows = Int.tdiv n rt.state.platform.rows ∧
    (bsp_begin cfg rt n env).2.state.cols = Int.tdiv n (bsp_begin cfg rt n env).2.state.rows ∧
    (bsp_begin cfg rt n env).2.state.rows ≠ 0 ∧
    (bsp_begin cfg rt n env).2.state.rows * (bsp_begin cfg rt n env).2.state.cols = n ∧
    (bsp_begin cfg rt n env).2.state.rows * (bsp_begin cfg rt n env).2.state.cols ≥ n := by
  obtain ⟨o1, o2, o3, o4, o5⟩ := hok
  have hp : rt.state.platform.rows ≠ 0 := by omega
  have hr : 1 ≤ Int.tdiv n rt.state.platform.rows := by
    rw [Int.tdiv_eq_ediv (by omega) (by omega)]
    exact Int.le_ediv_of_mul_le (by omega) (by omega)
  have hr0 : Int.tdiv n rt.state.platform.rows ≠ 0 := by omega
  have hmul : Int.tdiv n rt.state.platform.rows *
      Int.tdiv n (Int.tdiv n rt.state.platform.rows) = n := by
    rw [Int.tdiv_eq_ediv (a := n) (b := Int.tdiv n rt.state.platform.rows) (by omega) (by omega)]
    exact Int.mul_ediv_cancel' hdiv
  unfold bsp_begin
  have hn : ¬ (n < 1 ∨ n > (cfg._NPROCS : Int)) := by omega
  simp only [hn, if_false, hp, hr0, o1, o2, o3, o4, o5, Bool.not_true, Bool.false_eq_true]
  refine ⟨?_, ?_, ?_, ?_, ?_, ?_⟩
  · trivial
  · trivial
  · trivial
  · exact hr0
  · exact hmul
  · exact le_of_eq hmul.symm

/-- Instance of `bsp_begin_tiling`: 8 cores on the 4 x 4 board. -/
theorem bsp_begin_tiling_witness :
    (bsp_begin cfg16 rt_4x4 8 begin_ok).1 = Ret.returned 1 ∧
    (bsp_begin cfg16 rt_4x4 8 begin_ok).2.state.rows *
      (bsp_begin cfg16 rt_4x4 8 begin_ok).2.state.cols ≥ 8 :=
  have h := bsp_begin_tiling cfg16 rt_4x4 8 begin_ok (by decide) (by decide) (by decide)
    (by decide) (by decide) (by decide)
  ⟨h.1, h.2.2.2.2.2⟩

/-! ### The end callback of `bsp_end` (C9) -/

/-- Claim C9 (`bsp_end` runs the end callback), evaluated on the code.  For every
initialized runtime in which `ebsp_set_end_callback` has registered the
callback `f` and for which `e_finalize` succeeds, `bsp_end` returns 1, clears
the flag and zeroes the state, but its events are only the release of the
buffer handle and the finalize call: the callback `f` is not invoked, because
`state.end_callback` is tested after `memset` has cleared it. -/
theorem bsp_end_skips_end_callback (cfg : Config) (rt : Runtime) (f : Nat)
    (hinit : rt.bsp_initialized ≠ 0) :
    (ebsp_set_end_callback rt.state (some f)).end_callback = some f ∧
    bsp_end cfg { rt with state := ebsp_set_end_callback rt.state (some f) } true =
      (1, { state := zero_state cfg, bsp_initialized := 0 },
        [Event.free_emem, Event.finalize true]) ∧
    Event.end_callback f ∉
      (bsp_end cfg { rt with state := ebsp_set_end_callback rt.state (some f) } true).2.2 := by
  have h : bsp_end cfg { rt with state := ebsp_set_end_callback rt.state (some f) } true =
      (1, { state := zero_state cfg, bsp_initialized := 0 },
        [Event.free_emem, Event.finalize true]) := by
    unfold bsp_end
    simp [hinit, zero_state]
  refine ⟨rfl, h, ?_⟩
  rw [h]
  simp

/-- Instance of `bsp_end_skips_end_callback` on the 4 x 4 board. -/
theorem bsp_end_skips_end_callback_witness :
    bsp_end cfg16 { rt_4x4 with state := ebsp_set_end_callback rt_4x4.state (some 2) } true =
      (1, { state := zero_state cfg16, bsp_initialized := 0 },
        [Event.free_emem, Event.finalize true]) :=
  (bsp_end_skips_end_callback cfg16 rt_4x4 2 (by decide)).2.1

/-! ### The initialization flag (C10) -/

/-- The two guards that exist: `bsp_end` refuses to run when the flag is unset
and `bsp_init` refuses to run when it is set; both leave the globals alone. -/
theorem init_flag_guards (cfg : Config) (rt : Runtime) :
    (rt.bsp_initialized = 0 → ∀ ok, bsp_end cfg rt ok = (0, rt, [])) ∧
    (rt.bsp_initialized ≠ 0 → ∀ name env, bsp_init rt name env = (0, rt)) := by
  constructor
  · intro h ok; unfold bsp_end; simp [h]
  · intro h name env; unfold bsp_init; simp [h]

/-- Claim C10 (initialization guard), evaluated on the code with the flag
unset.  In a process that never called `bsp_init` (both globals zero),
`bsp_begin(4)` does not return failure: it divides by `state.platform.rows = 0`.
With the flag unset and a platform description present it returns 1.
`ebsp_spmd` in the fresh process returns 1 when the hardware calls succeed. -/
theorem uninitialized_begin_and_spmd_not_refused :
    rt_fresh.bsp_initialized = 0 ∧
    (bsp_begin cfg16 rt_fresh 4 begin_ok).1 = Ret.undefined ∧
    (bsp_begin cfg16 { rt_4x4 with bsp_initialized := 0 } 4 begin_ok).1 = Ret.returned 1 ∧
    (Runtime.ebsp_spmd cfg16 rt_fresh finishing_run).1 = Ret.returned 1 := by
  refine ⟨rfl, by decide, by decide, by rfl⟩

/-! ### Which calls move the cursor (C11) -/

theorem move_state (cfg : Config) (st : bsp_state_t) (cap : Int) (r : bsp_state_t × List Nat)
    (h : ebsp_move cfg st cap = some r) : r.1 = _pop_queue_message st := by
  unfold ebsp_move at h
  simp only at h
  split at h
  · simp only [Option.some.injEq] at h; rw [← h]
  · split_ifs at h
    · simp only [Option.some.injEq] at h; rw [← h]
    · split at h
      · simp at h
      · split at h
        · simp at h
        · simp only [Option.some.injEq] at h; rw [← h]

theorem hpmove_state (cfg : Config) (st : bsp_state_t)
    (r : bsp_state_t × Int × Option (Nat × Nat))
    (h : ebsp_hpmove cfg st = some r) : r.1 = _pop_queue_message st := by
  unfold ebsp_hpmove at h
  simp only at h
  split at h
  · simp only [Option.some.injEq] at h; rw [← h]
  · split at h
    · simp at h
    · simp only [Option.some.injEq] at h; rw [← h]

theorem get_tag_defined (cfg : Config) (st : bsp_state_t)
    (hq : queue_ok cfg st.comm_buf) (ht : tags_ok cfg st.comm_buf)
    (h0 : 0 ≤ st.message_index) (h2 : st.message_index < 2147483648) :
    ∃ r, ebsp_get_tag cfg st = some r := by
  by_cases hlt : st.message_index < (st.comm_buf.count : Int)
  · have hn := next_some_of_lt st h0 hlt h2
    obtain ⟨q1, q2, q3, q4⟩ := hq
    obtain ⟨t1, t2⟩ := ht
    have hlen : st.message_index.toNat < st.comm_buf.message.length := by omega
    have hm : message_at st st.message_index
        = some st.comm_buf.message[st.message_index.toNat] := by
      unfold message_at
      rw [if_pos h0, List.getElem?_eq_getElem hlen]
    have hmem : st.comm_buf.message[st.message_index.toNat]
        ∈ st.comm_buf.message.take st.comm_buf.count := by
      rw [List.mem_iff_getElem?]
      refine ⟨st.message_index.toNat, ?_⟩
      rw [List.getElem?_take, if_pos (by omega), List.getElem?_eq_getElem hlen]
    have hfit := t2 _ hmem
    have hu : to_unsigned st.comm_buf.tagsize = st.comm_buf.tagsize.toNat :=
      to_unsigned_of_nonneg _ t1 (by omega)
    unfold ebsp_get_tag
    simp only [hn, hm, hu]
    unfold memcpy_from_buf
    rw [if_pos hfit]
    exact ⟨_, rfl⟩
  · have hn := next_none_of_le st (by omega) h2
    unfold ebsp_get_tag
    simp only [hn]
    exact ⟨_, rfl⟩

theorem qsize_defined (cfg : Config) (st : bsp_state_t)
    (hq : queue_ok cfg st.comm_buf) (h0 : 0 ≤ st.message_index) :
    ∃ r, ebsp_qsize st = some r := by
  obtain ⟨q1, q2, q3, q4⟩ := hq
  have hsig : to_signed st.comm_buf.count = (st.comm_buf.count : Int) := to_signed_of_lt _ q2
  unfold ebsp_qsize
  simp only [hsig]
  by_cases hle : st.message_index ≤ (st.comm_buf.count : Int)
  · obtain ⟨b, hb⟩ := qsize_loop_packets st
      ((st.comm_buf.count : Int) - st.message_index).toNat st.message_index 0 0 h0 (by omega)
    exact ⟨_, hb⟩
  · have hz : ((st.comm_buf.count : Int) - st.message_index).toNat = 0 := by omega
    rw [hz]
    exact ⟨_, rfl⟩

/-- On an empty queue every `ebsp_hpmove` finds no message and advances the
cursor: after `n + 1` calls the cursor is `message_index + n + 1` as an `int`. -/
theorem hpmove_on_empty_queue (cfg : Config) (n : Nat) :
    ∀ st : bsp_state_t, st.comm_buf.count = 0 →
      ∃ st1, consume_all cfg st (List.replicate (n + 1) Consume.hpmove) = some st1 ∧
        st1.comm_buf = st.comm_buf ∧
        st1.message_index = wrap_int (st.message_index + ((n : Int) + 1)) := by
  have hstep : ∀ st : bsp_state_t, st.comm_buf.count = 0 →
      consume cfg st Consume.hpmove = some (_pop_queue_message st) := by
    intro st hc
    have hn : _next_queue_message st = none := by
      unfold _next_queue_message
      rw [hc]
      simp
    unfold consume ebsp_hpmove
    simp only [hn, Option.map_some']
  induction n with
  | zero =>
    intro st hc
    refine ⟨_pop_queue_message st, ?_, rfl, ?_⟩
    · simp only [List.replicate, consume_all, hstep st hc]
    · simp [_pop_queue_message]
  | succ k ih =>
    intro st hc
    obtain ⟨st1, h1, h2, h3⟩ := ih (_pop_queue_message st) hc
    refine ⟨st1, ?_, h2, ?_⟩
    · rw [List.replicate_succ]
      unfold consume_all
      rw [hstep st hc]
      exact h1
    · rw [h3]
      simp only [_pop_queue_message, Nat.cast_add, Nat.cast_one]
      unfold wrap_int
      omega

/-- Claim C11 fails as stated at the last value of the cursor.  In a state whose
`message_index` is `INT_MAX` (no message pending there) `ebsp_hpmove` returns -1
and `ebsp_move` copies nothing, and the increment leaves the cursor at
`INT_MIN = -2147483648`, not at `INT_MAX + 1`.  The cursor gets there: nothing
resets it, and from the cursor 0 and the empty queue that `bsp_begin` leaves,
`2 ^ 31` calls of `ebsp_hpmove` end with the cursor at `INT_MIN`. -/
theorem cursor_wraps_at_int_max :
    last_cursor_state.message_index = 2147483647 ∧
    (ebsp_hpmove cfg16 last_cursor_state).map (fun r => (r.1.message_index, r.2.1))
      = some (-2147483648, -1) ∧
    (ebsp_move cfg16 last_cursor_state 4).map (fun r => (r.1.message_index, r.2))
      = some (-2147483648, []) ∧
    (bsp_begin cfg16 rt_4x4 16 begin_ok).2.state.message_index = 0 ∧
    ∃ st1, consume_all cfg16 (bsp_begin cfg16 rt_4x4 16 begin_ok).2.state
        (List.replicate 2147483648 Consume.hpmove) = some st1 ∧
      st1.message_index = -2147483648 :=
  ⟨by rfl, by decide, by decide, by decide,
    match hpmove_on_empty_queue cfg16 2147483647 (bsp_begin cfg16 rt_4x4 16 begin_ok).2.state
      (by decide) with
    | ⟨st1, h1, _, h3⟩ => ⟨st1, h1, h3.trans (by decide)⟩⟩

/-- Claim C11, amended.  For every runtime state and each of the four calls:
when the call returns, the communication buffer is what it was and every other
field of the state except the cursor is what it was; the cursor is unchanged
after `ebsp_get_tag` and `ebsp_qsize`; after `ebsp_move` and `ebsp_hpmove` it is
`message_index + 1` as an `int`, which is larger by exactly 1 whenever the cursor
was an `int` below `INT_MAX`.  The call does return whenever the queued headers
designate bytes inside the payload arena, the cursor is in `0 .. 2 ^ 31 - 1` and
the capacity passed to `ebsp_move` is not negative, and that covers the four
cases of the claim: a message is pending or none is, the capacity is zero or it
is not. -/
theorem only_consuming_calls_move_cursor (cfg : Config) (st : bsp_state_t) (call : QueueCall) :
    (∀ st1, call.state_after cfg st = some st1 →
      st1.comm_buf = st.comm_buf ∧
      st1 = { st with message_index := st1.message_index } ∧
      (call.consuming = false → st1.message_index = st.message_index) ∧
      (call.consuming = true → st1.message_index = wrap_int (st.message_index + 1)) ∧
      (call.consuming = true → -2147483648 ≤ st.message_index →
        st.message_index < 2147483647 → st1.message_index = st.message_index + 1)) ∧
    (queue_ok cfg st.comm_buf → tags_ok cfg st.comm_buf → 0 ≤ st.message_index →
      st.message_index < 2147483648 → call.ok →
      ∃ st1, call.state_after cfg st = some st1) := by
  constructor
  · intro st1 h
    cases call with
    | get_tag =>
      rcases hr : ebsp_get_tag cfg st with _ | r
      · simp [QueueCall.state_after, hr] at h
      · simp only [QueueCall.state_after, hr, Option.map_some', Option.some.injEq] at h
        subst h
        simp [QueueCall.consuming]
    | qsize =>
      rcases hr : ebsp_qsize st with _ | r
      · simp [QueueCall.state_after, hr] at h
      · simp only [QueueCall.state_after, hr, Option.map_some', Option.some.injEq] at h
        subst h
        simp [QueueCall.consuming]
    | move cap =>
      rcases hr : ebsp_move cfg st cap with _ | r
      · simp [QueueCall.state_after, hr] at h
      · simp only [QueueCall.state_after, hr, Option.map_some', Option.some.injEq] at h
        rw [← h, move_state cfg st cap r hr]
        refine ⟨rfl, rfl, fun hc => ?_, fun _ => rfl, fun _ h0 h1 => ?_⟩
        · simp [QueueCall.consuming] at hc
        · exact wrap_int_of_range _ (by omega) (by omega)
    | hpmove =>
      rcases hr : ebsp_hpmove cfg st with _ | r
      · simp [QueueCall.state_after, hr] at h
      · simp only [QueueCall.state_after, hr, Option.map_some', Option.some.injEq] at h
        rw [← h, hpmove_state cfg st r hr]
        refine ⟨rfl, rfl, fun hc => ?_, fun _ => rfl, fun _ h0 h1 => ?_⟩
        · simp [QueueCall.consuming] at hc
        · exact wrap_int_of_range _ (by omega) (by omega)
  · intro hq ht h0 h2 hok
    cases call with
    | get_tag =>
      obtain ⟨r, hr⟩ := get_tag_defined cfg st hq ht h0 h2
      exact ⟨st, by simp [QueueCall.state_after, hr]⟩
    | qsize =>
      obtain ⟨r, hr⟩ := qsize_defined cfg st hq h0
      exact ⟨st, by simp [QueueCall.state_after, hr]⟩
    | move cap =>
      have hc := consume_defined cfg st (Consume.move cap) hq h0 h2 hok
      exact ⟨_pop_queue_message st, hc⟩
    | hpmove =>
      have hc := consume_defined cfg st Consume.hpmove hq h0 h2 trivial
      exact ⟨_pop_queue_message st, hc⟩

/-- Instance of `only_consuming_calls_move_cursor`: `ebsp_move` with capacity 0 on a queue
of one pending message. -/
theorem only_consuming_calls_move_cursor_witness :
    ∃ st1, (QueueCall.move 0).state_after cfg16 one_message_state = some st1 ∧
      st1.comm_buf = one_message_state.comm_buf ∧ st1.message_index = 1 :=
  have t := only_consuming_calls_move_cursor cfg16 one_message_state (QueueCall.move 0)
  match t.2 (by decide) (by decide) (by decide) (by decide) (by decide) with
  | ⟨st1, h⟩ =>
    ⟨st1, h, (t.1 st1 h).1,
      ((t.1 st1 h).2.2.2.2 (by rfl) (by decide) (by decide)).trans (by decide)⟩

/-! ### Tag-size negotiation (C12) -/

/-- Claim C12 (tag-size negotiation swaps and can be undone).  For every
runtime state with tag size `o` and every new size `n`, after
`ebsp_set_tagsize` called with `*tag_bytes = n` the function
`ebsp_get_tagsize` returns `n` and `*tag_bytes` holds `o`; every other field of
the state and of the communication buffer is what it was; and a second call
with the returned value gives back the original state exactly and leaves `n`
in `*tag_bytes`. -/
theorem set_tagsize_swaps (st : bsp_state_t) (n : Int) :
    ebsp_get_tagsize (ebsp_set_tagsize st n).1 = n ∧
    (ebsp_set_tagsize st n).2 = ebsp_get_tagsize st ∧
    ((ebsp_set_tagsize st n).1.nprocs = st.nprocs ∧
      (ebsp_set_tagsize st n).1.e_directory = st.e_directory ∧
      (ebsp_set_tagsize st n).1.e_fullpath = st.e_fullpath ∧
      (ebsp_set_tagsize st n).1.rows = st.rows ∧
      (ebsp_set_tagsize st n).1.cols = st.cols ∧
      (ebsp_set_tagsize st n).1.nprocs_used = st.nprocs_used ∧
      (ebsp_set_tagsize st n).1.emem = st.emem ∧
      (ebsp_set_tagsize st n).1.emem_malloc = st.emem_malloc ∧
      (ebsp_set_tagsize st n).1.message_index = st.message_index ∧
      (ebsp_set_tagsize st n).1.sync_callback = st.sync_callback ∧
      (ebsp_set_tagsize st n).1.end_callback = st.end_callback ∧
      (ebsp_set_tagsize st n).1.num_vars_registered = st.num_vars_registered ∧
      (ebsp_set_tagsize st n).1.platform = st.platform ∧
      (ebsp_set_tagsize st n).1.dev = st.dev ∧
      (ebsp_set_tagsize st n).1.ts_start = st.ts_start ∧
      (ebsp_set_tagsize st n).1.ts_end = st.ts_end) ∧
    ((ebsp_set_tagsize st n).1.comm_buf.syncstate = st.comm_buf.syncstate ∧
      (ebsp_set_tagsize st n).1.comm_buf.syncstate_ptr = st.comm_buf.syncstate_ptr ∧
      (ebsp_set_tagsize st n).1.comm_buf.msgbuf = st.comm_buf.msgbuf ∧
      (ebsp_set_tagsize st n).1.comm_buf.msgflag = st.comm_buf.msgflag ∧
      (ebsp_set_tagsize st n).1.comm_buf.nprocs = st.comm_buf.nprocs ∧
      (ebsp_set_tagsize st n).1.comm_buf.count = st.comm_buf.count ∧
      (ebsp_set_tagsize st n).1.comm_buf.message = st.comm_buf.message ∧
      (ebsp_set_tagsize st n).1.comm_buf.buffer_size = st.comm_buf.buffer_size ∧
      (ebsp_set_tagsize st n).1.comm_buf.buf = st.comm_buf.buf) ∧
    ebsp_set_tagsize (ebsp_set_tagsize st n).1 (ebsp_set_tagsize st n).2 = (st, n) := by
  refine ⟨rfl, rfl, ?_, ?_, rfl⟩
  · exact ⟨rfl, rfl, rfl, rfl, rfl, rfl, rfl, rfl, rfl, rfl, rfl, rfl, rfl, rfl, rfl, rfl⟩
  · exact ⟨rfl, rfl, rfl, rfl, rfl, rfl, rfl, rfl, rfl⟩

/-! ### The tally under corruption (C13) -/

theorem tally_slot_counts (cfg : Config) (hd : cfg.codes_distinct) (c : Counters) (s : Int) :
    (tally_slot cfg c s).run_counter = c.run_counter + (if s = cfg.STATE_RUN then 1 else 0) ∧
    (tally_slot cfg c s).sync_counter = c.sync_counter + (if s = cfg.STATE_SYNC then 1 else 0) ∧
    (tally_slot cfg c s).finish_counter
      = c.finish_counter + (if s = cfg.STATE_FINISH then 1 else 0) ∧
    (tally_slot cfg c s).continue_counter
      = c.continue_counter + (if s = cfg.STATE_CONTINUE then 1 else 0) ∧
    (tally_slot cfg c s).abort_counter
      = c.abort_counter + (if s = cfg.STATE_ABORT then 1 else 0) ∧
    (tally_slot cfg c s).extmem_corrupted
      = (if cfg.unrecognised s = true then wrap_int (c.extmem_corrupted + 1)
          else c.extmem_corrupted) := by
  unfold Config.codes_distinct at hd
  simp only [List.nodup_cons, List.mem_cons, List.mem_singleton, not_or, List.not_mem_nil,
    not_false_eq_true, List.nodup_nil, and_true] at hd
  obtain ⟨⟨a1, a2, a3, a4, a5⟩, ⟨b2, b3, b4, b5⟩, ⟨c3, c4, c5⟩, ⟨d4, d5⟩, e5⟩ := hd
  unfold tally_slot Config.unrecognised Config.codes
  by_cases h0 : s = cfg.STATE_INIT
  · subst h0; simp [a1, a2, a3, a4, a5]
  by_cases h1 : s = cfg.STATE_RUN
  · subst h1; simp [h0, b2, b3, b4, b5]
  by_cases h2 : s = cfg.STATE_SYNC
  · subst h2; simp [h0, h1, c3, c4, c5]
  by_cases h3 : s = cfg.STATE_FINISH
  · subst h3; simp [h0, h1, h2, d4, d5]
  by_cases h4 : s = cfg.STATE_CONTINUE
  · subst h4; simp [h0, h1, h2, h3, e5]
  by_cases h5 : s = cfg.STATE_ABORT
  · subst h5; simp [h0, h1, h2, h3, h4]
  · simp [h0, h1, h2, h3, h4, h5]

theorem foldl_counts (cfg : Config) (hd : cfg.codes_distinct) (l : List Int) :
    ∀ c : Counters,
      (l.foldl (tally_slot cfg) c).run_counter = c.run_counter + (l.count cfg.STATE_RUN : Nat) ∧
      (l.foldl (tally_slot cfg) c).sync_counter
        = c.sync_counter + (l.count cfg.STATE_SYNC : Nat) ∧
      (l.foldl (tally_slot cfg) c).finish_counter
        = c.finish_counter + (l.count cfg.STATE_FINISH : Nat) ∧
      (l.foldl (tally_slot cfg) c).continue_counter
        = c.continue_counter + (l.count cfg.STATE_CONTINUE : Nat) ∧
      (l.foldl (tally_slot cfg) c).abort_counter
        = c.abort_counter + (l.count cfg.STATE_ABORT : Nat) := by
  induction l with
  | nil => intro c; simp
  | cons s t ih =>
    intro c
    obtain ⟨i1, i2, i3, i4, i5⟩ := ih (tally_slot cfg c s)
    obtain ⟨s1, s2, s3, s4, s5, -⟩ := tally_slot_counts cfg hd c s
    have hc : ∀ a : Int, ((s :: t).count a : Int) = (t.count a : Int) + (if s = a then 1 else 0) := by
      intro a
      rw [List.count_cons]
      by_cases h : s = a
      · subst h; simp
      · simp [h]
    rw [List.foldl_cons, i1, i2, i3, i4, i5, s1, s2, s3, s4, s5,
      hc cfg.STATE_RUN, hc cfg.STATE_SYNC, hc cfg.STATE_FINISH, hc cfg.STATE_CONTINUE,
      hc cfg.STATE_ABORT]
    refine ⟨by ring, by ring, by ring, by ring, by ring⟩

/-- The cumulative corruption counter after a scan that does not take it past
`INT_MAX`. -/
theorem foldl_corrupted (cfg : Config) (hd : cfg.codes_distinct) (l : List Int) :
    ∀ c : Counters, -2147483648 ≤ c.extmem_corrupted →
      c.extmem_corrupted + (l.countP cfg.unrecognised : Nat) < 2147483648 →
      (l.foldl (tally_slot cfg) c).extmem_corrupted
        = c.extmem_corrupted + (l.countP cfg.unrecognised : Nat) := by
  induction l with
  | nil => intro c _ _; simp
  | cons s t ih =>
    intro c h0 h1
    have s6 := (tally_slot_counts cfg hd c s).2.2.2.2.2
    have hp : (((s :: t).countP cfg.unrecognised : Nat) : Int)
        = (t.countP cfg.unrecognised : Int) + (if cfg.unrecognised s = true then 1 else 0) := by
      rw [List.countP_cons]
      by_cases h : cfg.unrecognised s = true <;> simp [h]
    rw [hp] at h1 ⊢
    rw [List.foldl_cons]
    by_cases hu : cfg.unrecognised s = true
    · simp only [hu, if_true] at s6 h1 ⊢
      have hw : wrap_int (c.extmem_corrupted + 1) = c.extmem_corrupted + 1 :=
        wrap_int_of_range _ (by omega) (by omega)
      rw [hw] at s6
      rw [ih (tally_slot cfg c s) (by rw [s6]; omega) (by rw [s6]; omega), s6]
      ring
    · simp only [hu, Bool.false_eq_true, if_false, add_zero] at s6 h1 ⊢
      rw [ih (tally_slot cfg c s) (by rw [s6]; omega) (by rw [s6]; omega), s6]

theorem count_lt_length_of_ne (a : Int) (l : List Int) (h : ∃ b ∈ l, b ≠ a) :
    l.count a < l.length := by
  have hle := List.count_le_length a l
  rcases Nat.lt_or_ge (l.count a) l.length with hlt | hge
  · exact hlt
  · exfalso
    have heq : l.count a = l.length := Nat.le_antisymm hle hge
    obtain ⟨b, hb, hne⟩ := h
    exact hne ((List.count_eq_length.mp heq) b hb).symm

theorem unrecognised_ne (cfg : Config) (s : Int) (h : cfg.unrecognised s = true) :
    s ≠ cfg.STATE_SYNC ∧ s ≠ cfg.STATE_FINISH ∧ s ≠ cfg.STATE_ABORT := by
  unfold Config.unrecognised Config.codes at h
  simp only [List.mem_cons, List.mem_singleton, not_or, decide_eq_true_eq, List.not_mem_nil,
    or_false] at h
  exact ⟨h.2.2.1, h.2.2.2.1, h.2.2.2.2.2⟩

/-- With an unrecognised value among the scanned slots the loop body performs
no release and does not take the finish exit; it takes the abort exit exactly
when a scanned slot holds `STATE_ABORT`. -/
theorem poll_after_read_unrecognised (cfg : Config) (hd : cfg.codes_distinct) (st : bsp_state_t)
    (ts ec : Int) (env : PollEnv) (evs : List Event)
    (h : ∃ s ∈ scanned_slots st, cfg.unrecognised s = true) :
    poll_after_read cfg st ts ec env evs =
      poll_exit (check_messages st env.msgflag_write_ok).1 ts (tally cfg st ec)
        (evs ++ (check_messages st env.msgflag_write_ok).2) ∧
    (tally cfg st ec).finish_counter ≠ st.nprocs ∧
    ((tally cfg st ec).abort_counter ≠ 0 ↔ cfg.STATE_ABORT ∈ scanned_slots st) := by
  obtain ⟨s, hs, hu⟩ := h
  obtain ⟨n1, n2, n3⟩ := unrecognised_ne cfg s hu
  obtain ⟨-, c2, c3, -, c5⟩ := foldl_counts cfg hd (scanned_slots st) ⟨0, 0, 0, 0, 0, ec⟩
  have l1 := count_lt_length_of_ne cfg.STATE_SYNC (scanned_slots st) ⟨s, hs, n1⟩
  have l2 := count_lt_length_of_ne cfg.STATE_FINISH (scanned_slots st) ⟨s, hs, n2⟩
  have hlen : (scanned_slots st).length ≤ st.nprocs.toNat := by
    unfold scanned_slots; simp
  have hsync : (tally cfg st ec).sync_counter ≠ st.nprocs := by
    unfold tally; rw [c2]; simp only [zero_add]; omega
  have hfin : (tally cfg st ec).finish_counter ≠ st.nprocs := by
    unfold tally; rw [c3]; simp only [zero_add]; omega
  refine ⟨?_, hfin, ?_⟩
  · unfold poll_after_read
    simp only [(check_messages_frame st env.msgflag_write_ok).1, hsync, if_false]
  · unfold tally; rw [c5]
    simp only [zero_add, ne_eq, Nat.cast_eq_zero]
    rw [← List.count_pos_iff]
    omega

theorem poll_exit_flags (st : bsp_state_t) (ts : Int) (c : Counters) (evs : List Event) :
    (poll_exit st ts c evs).extmem_corrupted = c.extmem_corrupted ∧
    ((poll_exit st ts c evs).exit_abort = true ↔ c.abort_counter ≠ 0) ∧
    (c.finish_counter ≠ st.nprocs → (poll_exit st ts c evs).exit_finish = false) ∧
    ((∀ e ∈ evs, e.is_release = false) →
      ∀ e ∈ (poll_exit st ts c evs).events, e.is_release = false) := by
  unfold poll_exit
  split_ifs with h1 h2
  · refine ⟨rfl, by simp [h1], fun _ => rfl, fun h e he => ?_⟩
    simp only [List.mem_append, List.mem_singleton] at he
    rcases he with he | rfl
    · exact h e he
    · rfl
  · refine ⟨rfl, by simp [h1], fun h => absurd h2 h, fun h e he => h e he⟩
  · exact ⟨rfl, by simp [h1], fun _ => rfl, fun h e he => h e he⟩

theorem poll_after_read_corrupted (cfg : Config) (st : bsp_state_t) (ts ec : Int)
    (env : PollEnv) (evs : List Event) :
    (poll_after_read cfg st ts ec env evs).extmem_corrupted
      = (tally cfg st ec).extmem_corrupted := by
  unfold poll_after_read
  simp only
  split_ifs
  · split
    · rfl
    · exact (poll_exit_flags _ _ _ _).1
  · exact (poll_exit_flags _ _ _ _).1

theorem poll_loop_goes_on (cfg : Config) (st : bsp_state_t) (ts ec : Int) (env : PollEnv)
    (rest : List PollEnv)
    (h1 : (poll_iteration cfg st ts ec env).outcome = Ret.polling)
    (h2 : (poll_iteration cfg st ts ec env).exit_abort = false)
    (h3 : (poll_iteration cfg st ts ec env).exit_finish = false) :
    (poll_loop cfg st ts ec (env :: rest)).iterations =
      (poll_loop cfg (poll_iteration cfg st ts ec env).st
        (poll_iteration cfg st ts ec env).total_syncs
        (poll_iteration cfg st ts ec env).extmem_corrupted rest).iterations + 1 := by
  rw [poll_loop]
  simp only [h1, h2, h3, ne_eq, not_true_eq_false, Bool.false_eq_true, or_self, if_false]

theorem corrupted_iteration (ts ec : Int) :
    poll_iteration cfg16 (demo_state 1 1 1 [99]) ts ec (demo_poll [99] 0 true) =
    ⟨demo_state 1 1 1 [99], ts, wrap_int (ec + 1),
      [Event.write_remotetimer true, Event.read_head true], Ret.polling, false, false⟩ := by
  rfl

/-- A poll loop that reads one unrecognised slot in each of `n + 1` iterations
is still polling and has incremented the corruption counter `n + 1` times. -/
theorem corrupted_loop (n : Nat) :
    ∀ ts ec : Int,
      (poll_loop cfg16 (demo_state 1 1 1 [99]) ts ec
        (List.replicate (n + 1) (demo_poll [99] 0 true))).extmem_corrupted
        = wrap_int (ec + ((n : Int) + 1)) ∧
      (poll_loop cfg16 (demo_state 1 1 1 [99]) ts ec
        (List.replicate (n + 1) (demo_poll [99] 0 true))).iterations = n + 1 := by
  induction n with
  | zero =>
    intro ts ec
    simp only [List.replicate]
    unfold poll_loop
    rw [corrupted_iteration]
    simp [poll_loop]
  | succ k ih =>
    intro ts ec
    obtain ⟨h1, h2⟩ := ih ts (wrap_int (ec + 1))
    rw [List.replicate_succ]
    unfold poll_loop
    rw [corrupted_iteration]
    simp only [ne_eq, not_true_eq_false, Bool.false_eq_true, or_self, if_false]
    refine ⟨?_, by rw [h2]⟩
    rw [h1]
    simp only [Nat.cast_add, Nat.cast_one]
    unfold wrap_int
    omega

/-- Claim C13 fails as stated when the corruption counter is at `INT_MAX`: the
counter lives across the iterations of the poll loop, and one more unrecognised
slot (99 is none of the six codes of `cfg16`) leaves it at
`INT_MIN = -2147483648`, not larger by 1.  The counter gets there: a poll loop
that starts with the counter at 0 and reads one unrecognised slot per iteration
has it at `INT_MAX` after `2 ^ 31 - 1` iterations and at `INT_MIN` after
`2 ^ 31`. -/
theorem corruption_counter_wraps :
    cfg16.unrecognised 99 = true ∧
    (tally cfg16 (demo_state 1 1 1 [99]) 2147483647).extmem_corrupted = -2147483648 ∧
    (poll_iteration cfg16 (demo_state 1 1 1 [0]) 0 2147483647
      (demo_poll [99] 0 true)).extmem_corrupted = -2147483648 ∧
    (poll_loop cfg16 (demo_state 1 1 1 [99]) 0 0
      (List.replicate 2147483647 (demo_poll [99] 0 true))).extmem_corrupted = 2147483647 ∧
    (poll_loop cfg16 (demo_state 1 1 1 [99]) 0 0
      (List.replicate 2147483648 (demo_poll [99] 0 true))).extmem_corrupted = -2147483648 :=
  ⟨by decide, by decide, by decide, (corrupted_loop 2147483646 0 0).1.trans (by decide),
    (corrupted_loop 2147483647 0 0).1.trans (by decide)⟩

/-- Claim C13, amended.  Let `state.nprocs` not exceed the length of the
syncstate array, so that the scanned slots `0 .. state.nprocs - 1` exist.  After
the tally loop each of the run, sync, finish, continue and abort counters is the
number of scanned slots holding exactly that code, whatever the other slots
hold; and when the corruption counter is an `int` that the scan does not take
past `INT_MAX`, it has grown by the number of scanned slots whose value is none
of the six codes.  A slot with such a value increments the corruption counter
(an `int` increment: by exactly 1 below `INT_MAX`) and changes no other counter.
In a poll iteration whose prefix read succeeds and delivers an unrecognised
value in a scanned slot, `ebsp_spmd` does not return, no barrier release takes
place (sync counter unchanged, no release event, the mirror holds the slots as
read), the finish exit is not taken, and the abort exit is taken exactly when
some scanned slot holds `STATE_ABORT`; without such a slot the loop goes on with
the next iteration. -/
theorem tally_corruption_tolerant (cfg : Config) (hd : cfg.codes_distinct) :
    (∀ (st : bsp_state_t) (ec : Int), st.nprocs.toNat ≤ st.comm_buf.syncstate.length →
      (tally cfg st ec).run_counter = ((scanned_slots st).count cfg.STATE_RUN : Nat) ∧
      (tally cfg st ec).sync_counter = ((scanned_slots st).count cfg.STATE_SYNC : Nat) ∧
      (tally cfg st ec).finish_counter = ((scanned_slots st).count cfg.STATE_FINISH : Nat) ∧
      (tally cfg st ec).continue_counter
        = ((scanned_slots st).count cfg.STATE_CONTINUE : Nat) ∧
      (tally cfg st ec).abort_counter = ((scanned_slots st).count cfg.STATE_ABORT : Nat) ∧
      (scanned_slots st).length = st.nprocs.toNat ∧
      (-2147483648 ≤ ec →
        ec + ((scanned_slots st).countP cfg.unrecognised : Nat) < 2147483648 →
        (tally cfg st ec).extmem_corrupted
          = ec + ((scanned_slots st).countP cfg.unrecognised : Nat))) ∧
    (∀ (c : Counters) (s : Int), cfg.unrecognised s = true →
      tally_slot cfg c s = { c with extmem_corrupted := wrap_int (c.extmem_corrupted + 1) } ∧
      (-2147483648 ≤ c.extmem_corrupted → c.extmem_corrupted < 2147483647 →
        tally_slot cfg c s = { c with extmem_corrupted := c.extmem_corrupted + 1 })) ∧
    (∀ (st : bsp_state_t) (ts ec : Int) (env : PollEnv), env.read_ok = true →
      st.nprocs.toNat ≤ env.rd_syncstate.length →
      (-2147483648 ≤ ec →
        ec + ((env.rd_syncstate.take st.nprocs.toNat).countP cfg.unrecognised : Nat)
          < 2147483648 →
        (poll_iteration cfg st ts ec env).extmem_corrupted
          = ec + ((env.rd_syncstate.take st.nprocs.toNat).countP cfg.unrecognised : Nat)) ∧
      ((∃ s ∈ env.rd_syncstate.take st.nprocs.toNat, cfg.unrecognised s = true) →
        (poll_iteration cfg st ts ec env).outcome = Ret.polling ∧
        (poll_iteration cfg st ts ec env).total_syncs = ts ∧
        (∀ e ∈ (poll_iteration cfg st ts ec env).events, e.is_release = false) ∧
        (poll_iteration cfg st ts ec env).st.comm_buf.syncstate = env.rd_syncstate ∧
        (poll_iteration cfg st ts ec env).exit_finish = false ∧
        ((poll_iteration cfg st ts ec env).exit_abort = true ↔
          cfg.STATE_ABORT ∈ env.rd_syncstate.take st.nprocs.toNat) ∧
        (cfg.STATE_ABORT ∉ env.rd_syncstate.take st.nprocs.toNat →
          ∀ rest : List PollEnv,
            (poll_loop cfg st ts ec (env :: rest)).iterations =
              (poll_loop cfg (poll_iteration cfg st ts ec env).st ts
                (poll_iteration cfg st ts ec env).extmem_corrupted rest).iterations + 1))) := by
  refine ⟨fun st ec hlen => ?_, fun c s hu => ?_, fun st ts ec env hread hlen => ?_⟩
  · have h := foldl_counts cfg hd (scanned_slots st) ⟨0, 0, 0, 0, 0, ec⟩
    simp only [zero_add] at h
    obtain ⟨h1, h2, h3, h4, h5⟩ := h
    refine ⟨h1, h2, h3, h4, h5, ?_, fun e0 e1 => ?_⟩
    · unfold scanned_slots
      rw [List.length_take]
      omega
    · exact foldl_corrupted cfg hd (scanned_slots st) ⟨0, 0, 0, 0, 0, ec⟩ e0 e1
  · unfold Config.unrecognised Config.codes at hu
    simp only [List.mem_cons, List.mem_singleton, not_or, decide_eq_true_eq, List.not_mem_nil,
      or_false] at hu
    obtain ⟨h0, h1, h2, h3, h4, h5⟩ := hu
    have key : tally_slot cfg c s
        = { c with extmem_corrupted := wrap_int (c.extmem_corrupted + 1) } := by
      unfold tally_slot
      simp only [h0, h1, h2, h3, h4, h5, if_false]
    refine ⟨key, fun e0 e1 => ?_⟩
    rw [key, wrap_int_of_range _ (by omega) (by omega)]
  · have hscan : scanned_slots
        (read_sync_part (_update_remote_timer st env.clock env.timer_write_ok).1 env)
        = env.rd_syncstate.take st.nprocs.toNat := rfl
    rw [poll_iteration_read_ok cfg st ts ec env hread]
    constructor
    · intro e0 e1
      rw [poll_after_read_corrupted]
      unfold tally
      rw [hscan]
      exact foldl_corrupted cfg hd (env.rd_syncstate.take st.nprocs.toNat)
        ⟨0, 0, 0, 0, 0, ec⟩ e0 e1
    · intro hex
      obtain ⟨k1, k2, k3⟩ := poll_after_read_unrecognised cfg hd
        (read_sync_part (_update_remote_timer st env.clock env.timer_write_ok).1 env) ts ec env
        ([Event.write_remotetimer env.timer_write_ok] ++ [Event.read_head true])
        (by rw [hscan]; exact hex)
      rw [hscan] at k3
      obtain ⟨m1, m2, m3⟩ := check_messages_frame
        (read_sync_part (_update_remote_timer st env.clock env.timer_write_ok).1 env)
        env.msgflag_write_ok
      obtain ⟨f1, f2, f3, f4⟩ := poll_exit_flags
        (check_messages (read_sync_part (_update_remote_timer st env.clock env.timer_write_ok).1
          env) env.msgflag_write_ok).1 ts
        (tally cfg (read_sync_part (_update_remote_timer st env.clock env.timer_write_ok).1 env)
          ec)
        ([Event.write_remotetimer env.timer_write_ok] ++ [Event.read_head true] ++
          (check_messages (read_sync_part
            (_update_remote_timer st env.clock env.timer_write_ok).1 env)
            env.msgflag_write_ok).2)
      obtain ⟨p1, p2, -, -⟩ := poll_exit_fields
        (check_messages (read_sync_part (_update_remote_timer st env.clock env.timer_write_ok).1
          env) env.msgflag_write_ok).1 ts
        (tally cfg (read_sync_part (_update_remote_timer st env.clock env.timer_write_ok).1 env)
          ec)
        ([Event.write_remotetimer env.timer_write_ok] ++ [Event.read_head true] ++
          (check_messages (read_sync_part
            (_update_remote_timer st env.clock env.timer_write_ok).1 env)
            env.msgflag_write_ok).2)
      have hfin := f3 (by rw [m1]; exact k2)
      have hrel := f4 (by
        intro e he
        simp only [List.mem_append, List.mem_singleton, List.mem_cons, List.not_mem_nil,
          or_false] at he
        rcases he with (rfl | rfl) | he
        · rfl
        · rfl
        · exact m3 e he)
      have habort := f2.trans k3
      rw [k1]
      refine ⟨poll_exit_outcome _ _ _ _, p2, hrel, ?_, hfin, habort, ?_⟩
      · rw [p1, m2]; rfl
      · intro hno rest
        have hab : (poll_exit
            (check_messages (read_sync_part
              (_update_remote_timer st env.clock env.timer_write_ok).1 env)
              env.msgflag_write_ok).1 ts
            (tally cfg (read_sync_part (_update_remote_timer st env.clock env.timer_write_ok).1
              env) ec)
            ([Event.write_remotetimer env.timer_write_ok] ++ [Event.read_head true] ++
              (check_messages (read_sync_part
                (_update_remote_timer st env.clock env.timer_write_ok).1 env)
                env.msgflag_write_ok).2)).exit_abort = false := by
          by_contra hc
          exact hno (habort.mp (by simpa using hc))
        have hit := poll_iteration_read_ok cfg st ts ec env hread
        have g := poll_loop_goes_on cfg st ts ec env rest
          (by rw [hit, k1]; exact poll_exit_outcome _ _ _ _)
          (by rw [hit, k1]; exact hab) (by rw [hit, k1]; exact hfin)
        rw [hit, k1] at g
        rw [g, p2]

/-- Instance of `tally_corruption_tolerant`: four scanned slots holding `STATE_RUN`, the
unrecognised value 99, `STATE_SYNC` and `STATE_ABORT`, corruption counter at 7 before. -/
theorem tally_corruption_tolerant_witness :
    (demo_state 4 4 2 [1, 99, 2, 5]).nprocs.toNat
      ≤ (demo_state 4 4 2 [1, 99, 2, 5]).comm_buf.syncstate.length ∧
    (tally cfg16 (demo_state 4 4 2 [1, 99, 2, 5]) 7).sync_counter = 1 ∧
    (tally cfg16 (demo_state 4 4 2 [1, 99, 2, 5]) 7).abort_counter = 1 ∧
    (tally cfg16 (demo_state 4 4 2 [1, 99, 2, 5]) 7).extmem_corrupted = 8 :=
  have h := (tally_corruption_tolerant cfg16 (by decide)).1 (demo_state 4 4 2 [1, 99, 2, 5]) 7
    (by decide)
  ⟨by decide, h.2.1.trans (by decide), h.2.2.2.2.1.trans (by decide),
    (h.2.2.2.2.2.2 (by decide) (by decide)).trans (by decide)⟩

/-! ### Staged send (C14) -/

/-- Claim C14 (staged send copies host data into the staged chunk), evaluated
on the code.  When `ebsp_ext_malloc(nbytes)` returns a chunk (a pointer that is
not null, designating at least `nbytes` bytes) and `src` holds `nbytes >= 0`
bytes, `ebsp_send_buffered` leaves the chunk exactly as the allocator handed it
out and overwrites the first `nbytes` bytes of the caller's source buffer with
the bytes of the chunk: `memcpy` is called with `src` as its destination.  So
whenever the chunk does not already hold the bytes of `src`, the source buffer
is modified and the chunk does not hold the first `nbytes` of `src`.  When the
allocation fails, nothing is modified. -/
theorem send_buffered_copies_backwards (mem : staged_memory) (exmem_in_buffer : Nat)
    (dst_core_id nbytes : Int)
    (hp : exmem_in_buffer ≠ 0) (hn : 0 ≤ nbytes)
    (hchunk : nbytes ≤ (mem.chunk.length : Int)) (hsrc : nbytes ≤ (mem.src.length : Int))
    (hlen : mem.src.length < 4294967296)
    (hdst : 0 ≤ dst_core_id ∧ dst_core_id.toNat < mem.exmem_next_in_chunk.length) :
    (∃ mem1, ebsp_send_buffered mem exmem_in_buffer dst_core_id nbytes = some mem1 ∧
      mem1.chunk = mem.chunk ∧
      mem1.src.take nbytes.toNat = mem.chunk.take nbytes.toNat ∧
      mem1.src.drop nbytes.toNat = mem.src.drop nbytes.toNat ∧
      mem1.exmem_next_in_chunk[dst_core_id.toNat]? = some exmem_in_buffer ∧
      (mem.chunk.take nbytes.toNat ≠ mem.src.take nbytes.toNat →
        mem1.src.take nbytes.toNat ≠ mem.src.take nbytes.toNat ∧
        mem1.chunk.take nbytes.toNat ≠ mem.src.take nbytes.toNat)) ∧
    ebsp_send_buffered mem 0 dst_core_id nbytes = some mem := by
  have hu : to_unsigned nbytes = nbytes.toNat := to_unsigned_of_nonneg nbytes hn (by omega)
  have h1 : nbytes.toNat ≤ mem.chunk.length ∧ nbytes.toNat ≤ mem.src.length := by
    constructor <;> omega
  have hl : (mem.chunk.take nbytes.toNat).length = nbytes.toNat := by
    rw [List.length_take]; omega
  have htake : (mem.chunk.take nbytes.toNat ++ mem.src.drop nbytes.toNat).take nbytes.toNat
      = mem.chunk.take nbytes.toNat := by
    rw [List.take_append_of_le_length (by omega), List.take_take, min_self]
  have hdrop : (mem.chunk.take nbytes.toNat ++ mem.src.drop nbytes.toNat).drop nbytes.toNat
      = mem.src.drop nbytes.toNat := by
    have := List.drop_left (mem.chunk.take nbytes.toNat) (mem.src.drop nbytes.toNat)
    rw [hl] at this
    exact this
  constructor
  · refine ⟨{ mem with
        src := mem.chunk.take nbytes.toNat ++ mem.src.drop nbytes.toNat
        exmem_next_in_chunk := mem.exmem_next_in_chunk.set dst_core_id.toNat exmem_in_buffer },
      ?_, rfl, htake, hdrop, ?_, ?_⟩
    · unfold ebsp_send_buffered
      rw [if_neg hp, hu, if_pos h1, if_pos hdst]
    · simp only
      rw [List.getElem?_set_self hdst.2]
    · intro hne
      simp only
      rw [htake]
      exact ⟨hne, hne⟩
  · unfold ebsp_send_buffered
    simp

/-- Instance of `send_buffered_copies_backwards`: after sending the 4 bytes `1 2 3 4` to
core 0 through a fresh chunk at address 64, the source buffer holds four zero
bytes and the chunk still holds four zero bytes. -/
theorem send_buffered_copies_backwards_witness :
    ebsp_send_buffered staged_demo 64 0 4 = some ⟨[0, 0, 0, 0], [0, 0, 0, 0], [64, 0]⟩ ∧
    ∃ mem1, ebsp_send_buffered staged_demo 64 0 4 = some mem1 ∧ mem1.chunk = staged_demo.chunk :=
  have h := (send_buffered_copies_backwards staged_demo 64 0 4 (by decide) (by decide)
    (by decide) (by decide) (by decide) (by decide)).1
  match h with
  | ⟨mem1, h1, h2, _⟩ => ⟨by decide, mem1, h1, h2⟩

end EpiphanyBSP
